/-
Verification of the industry-chain orchestration pipeline
(`app/services/industry_chain_service.py`, `app/apis/v1/endpoint_industry_chain.py`,
`app/models/industry_chain.py`).

The Python source is shallowly embedded: the external collaborators
(`bocha_web_search`, `invoke_llm_with_fallback` from `app.services.deepsearch_engine`)
are out-of-scope per the specification and are modelled as oracle parameters
(search outcomes and language-model outcomes supplied as inputs); the async
fan-out is modelled by quantifying over the completion order of the per-keyword
search results.  `json.loads` / `json.dumps` / pydantic validation are modelled
by an executable JSON value type with a parser, serializer and validators.
-/
import Mathlib

set_option linter.unusedVariables false

namespace IndustryChain

/-! ## JSON values (model of Python parsed-JSON data) -/

/-- A JSON value, as produced by Python `json.loads`.  Numbers are modelled as
integers (the texts handled by this service use integral numbers only). -/
inductive Json where
  | null : Json
  | bool : Bool → Json
  | num : Int → Json
  | str : String → Json
  | arr : List Json → Json
  | obj : List (String × Json) → Json

/-! ## Character-level helpers shared by the parser and the extractors -/

/-- JSON / Python-`re` whitespace (ASCII subset). -/
def isWs (c : Char) : Bool :=
  c = ' ' || c = '\t' || c = '\n' || c = '\r' || c = '\x0c' || c = '\x0b'

/-- Drop leading whitespace. -/
def skipWs : List Char → List Char
  | [] => []
  | c :: cs => if isWs c then skipWs cs else c :: cs

/-! ## A JSON parser (model of `json.loads`)

The parser is fuel-indexed (fuel bounds the nesting depth, which is bounded by
the input length).  String escapes cover the common single-character escapes;
`\uXXXX` escapes and float literals are not modelled (none of the texts
considered here use them). -/

/-- Parse the body of a JSON string literal after the opening quote.
Returns the decoded characters and the input after the closing quote. -/
def parseStringBody : List Char → Option (List Char × List Char)
  | [] => none
  | '"' :: rest => some ([], rest)
  | '\\' :: e :: rest =>
    let dec : Option Char :=
      if e = '"' then some '"'
      else if e = '\\' then some '\\'
      else if e = '/' then some '/'
      else if e = 'n' then some '\n'
      else if e = 't' then some '\t'
      else if e = 'r' then some '\r'
      else if e = 'b' then some '\x08'
      else if e = 'f' then some '\x0c'
      else none
    match dec with
    | none => none
    | some c =>
      match parseStringBody rest with
      | none => none
      | some (s, rem) => some (c :: s, rem)
  | '\\' :: [] => none
  | c :: rest =>
    match parseStringBody rest with
    | none => none
    | some (s, rem) => some (c :: s, rem)

/-- Accumulate a run of decimal digits into a number. -/
def digitsGo (acc : Nat) : List Char → Nat × List Char
  | d :: ds => if d.isDigit then digitsGo (acc * 10 + (d.toNat - 48)) ds else (acc, d :: ds)
  | [] => (acc, [])

/-- Parse a run of decimal digits (at least one required). -/
def parseDigits : List Char → Option (Nat × List Char)
  | c :: cs => if c.isDigit then some (digitsGo (c.toNat - 48) cs) else none
  | [] => none

mutual

/-- Parse one JSON value from the input (leading whitespace allowed).
Returns the value and the remaining input. -/
def parseVal (fuel : Nat) (cs : List Char) : Option (Json × List Char) :=
  match fuel with
  | 0 => none
  | fuel + 1 =>
    match skipWs cs with
    | 'n' :: 'u' :: 'l' :: 'l' :: rest => some (.null, rest)
    | 't' :: 'r' :: 'u' :: 'e' :: rest => some (.bool true, rest)
    | 'f' :: 'a' :: 'l' :: 's' :: 'e' :: rest => some (.bool false, rest)
    | '"' :: rest =>
      match parseStringBody rest with
      | some (s, rem) => some (.str (String.mk s), rem)
      | none => none
    | '-' :: rest =>
      match parseDigits rest with
      | some (n, rem) => some (.num (-(n : Int)), rem)
      | none => none
    | '[' :: rest =>
      (match skipWs rest with
      | ']' :: rem => some (.arr [], rem)
      | _ =>
        match parseElems fuel rest with
        | some (xs, rem) => some (.arr xs, rem)
        | none => none)
    | '{' :: rest =>
      (match skipWs rest with
      | '}' :: rem => some (.obj [], rem)
      | _ =>
        match parseMembers fuel rest with
        | some (kvs, rem) => some (.obj kvs, rem)
        | none => none)
    | c :: rest =>
      if c.isDigit then
        match parseDigits (c :: rest) with
        | some (n, rem) => some (.num (n : Int), rem)
        | none => none
      else none
    | [] => none

/-- Parse a non-empty comma-separated list of values followed by `]`. -/
def parseElems (fuel : Nat) (cs : List Char) : Option (List Json × List Char) :=
  match fuel with
  | 0 => none
  | fuel + 1 =>
    match parseVal fuel cs with
    | none => none
    | some (v, rem) =>
      match skipWs rem with
      | ',' :: rest =>
        (match parseElems fuel rest with
        | some (xs, rem2) => some (v :: xs, rem2)
        | none => none)
      | ']' :: rest => some ([v], rest)
      | _ => none

/-- Parse a non-empty comma-separated list of `"key": value` members followed by `}`. -/
def parseMembers (fuel : Nat) (cs : List Char) : Option (List (String × Json) × List Char) :=
  match fuel with
  | 0 => none
  | fuel + 1 =>
    match skipWs cs with
    | '"' :: rest =>
      (match parseStringBody rest with
      | none => none
      | some (k, rem) =>
        match skipWs rem with
        | ':' :: rest2 =>
          (match parseVal fuel rest2 with
          | none => none
          | some (v, rem2) =>
            match skipWs rem2 with
            | ',' :: rest3 =>
              (match parseMembers fuel rest3 with
              | some (kvs, rem3) => some ((String.mk k, v) :: kvs, rem3)
              | none => none)
            | '}' :: rest3 => some ([(String.mk k, v)], rest3)
            | _ => none)
        | _ => none)
    | _ => none

end

/-- Model of Python `json.loads`: the whole string must be a single JSON value
surrounded only by whitespace. -/
def jsonLoads (s : String) : Option Json :=
  let cs := s.toList
  match parseVal (cs.length + 1) cs with
  | some (v, rem) => if skipWs rem = [] then some v else none
  | none => none

/-! ## Python string primitives used by the service -/

/-- Python `text.find(c)` (None instead of -1). -/
def pyFindChar (s : String) (c : Char) : Option Nat :=
  s.toList.findIdx? (· == c)

/-- Python `text.rfind(c)` (None instead of -1). -/
def pyRFindChar (s : String) (c : Char) : Option Nat :=
  match s.toList.reverse.findIdx? (· == c) with
  | some k => some (s.toList.length - 1 - k)
  | none => none

/-- Python `text[a:b]` for character indices `0 ≤ a`, `b` (clamped, empty when `b ≤ a`). -/
def pySlice (s : String) (a b : Nat) : String :=
  String.mk ((s.toList.drop a).take (b - a))

/-- Python `text[:b]`. -/
def pyTake (s : String) (b : Nat) : String := pySlice s 0 b

/-- The single-quote character, written by code point to keep it out of literals. -/
def squote : String := String.mk [Char.ofNat 39]

mutual

/-- Python `repr` of a parsed-JSON value (container strings single-quoted,
escape sequences not reproduced — adequate for the texts considered here). -/
def pyRepr : Json → String
  | .null => "None"
  | .bool true => "True"
  | .bool false => "False"
  | .num n => toString n
  | .str s => squote ++ s ++ squote
  | .arr xs => "[" ++ pyReprList xs ++ "]"
  | .obj kvs => "\x7b" ++ pyReprObj kvs ++ "\x7d"

/-- Comma-joined `repr`s of list elements. -/
def pyReprList : List Json → String
  | [] => ""
  | [x] => pyRepr x
  | x :: xs => pyRepr x ++ ", " ++ pyReprList xs

/-- Comma-joined `repr`s of dict members. -/
def pyReprObj : List (String × Json) → String
  | [] => ""
  | [(k, v)] => squote ++ k ++ squote ++ ": " ++ pyRepr v
  | (k, v) :: kvs => squote ++ k ++ squote ++ ": " ++ pyRepr v ++ ", " ++ pyReprObj kvs

end

/-- Python `str()` of a parsed-JSON value (identity on strings, `repr`-like otherwise). -/
def pyStr : Json → String
  | .str s => s
  | v => pyRepr v

/-- JSON string escaping as done by `json.dumps(..., ensure_ascii=False)`. -/
def jsonEscapeChar (c : Char) : String :=
  if c = '"' then "\\\""
  else if c = '\\' then "\\\\"
  else if c = '\n' then "\\n"
  else if c = '\t' then "\\t"
  else if c = '\r' then "\\r"
  else String.mk [c]

/-- Escape a whole string for JSON serialization. -/
def jsonEscape (s : String) : String :=
  String.join (s.toList.map jsonEscapeChar)

/-- `indent`-level prefix used by `json.dumps(..., indent=2)`. -/
def indentStr (lvl : Nat) : String := String.mk (List.replicate (2 * lvl) ' ')

mutual

/-- Model of `json.dumps(v, ensure_ascii=False, indent=2)` at nesting level `lvl`. -/
def dumpJson (lvl : Nat) : Json → String
  | .null => "null"
  | .bool true => "true"
  | .bool false => "false"
  | .num n => toString n
  | .str s => "\"" ++ jsonEscape s ++ "\""
  | .arr [] => "[]"
  | .arr (x :: xs) => "[\n" ++ dumpArr (lvl + 1) (x :: xs) ++ "\n" ++ indentStr lvl ++ "]"
  | .obj [] => "\x7b\x7d"
  | .obj (kv :: kvs) => "\x7b\n" ++ dumpObj (lvl + 1) (kv :: kvs) ++ "\n" ++ indentStr lvl ++ "\x7d"

/-- Serialize array elements, one per line. -/
def dumpArr (lvl : Nat) : List Json → String
  | [] => ""
  | [x] => indentStr lvl ++ dumpJson lvl x
  | x :: xs => indentStr lvl ++ dumpJson lvl x ++ ",\n" ++ dumpArr lvl xs

/-- Serialize object members, one per line. -/
def dumpObj (lvl : Nat) : List (String × Json) → String
  | [] => ""
  | [(k, v)] => indentStr lvl ++ "\"" ++ jsonEscape k ++ "\": " ++ dumpJson lvl v
  | (k, v) :: kvs =>
    indentStr lvl ++ "\"" ++ jsonEscape k ++ "\": " ++ dumpJson lvl v ++ ",\n" ++ dumpObj lvl kvs

end

/-- `json.dumps(tree, ensure_ascii=False, indent=2)` as used in `generate_stream`. -/
def pyJsonDumps (j : Json) : String := dumpJson 0 j

/-! ## The structured extractor (`_extract_json_object` / `_extract_json_array`)

The fenced-code-block regex `r"(three backticks)(?:json)?\s*(\{[\s\S]*\})\s*(three backticks)"`
is modelled directly: `re.search` tries each start position left to right; at a
candidate position the optional `json` tag and the whitespace run are
deterministic, and the greedy group ends at the last closing delimiter that is
followed by optional whitespace and a closing fence. -/

/-- Does the text begin with a code fence (three backticks)? -/
def startsWithTicks : List Char → Bool
  | '`' :: '`' :: '`' :: _ => true
  | _ => false

/-- Attempt the fence regex match anchored at the start of `s`; `o`/`c` are the
opening/closing delimiters of the captured group. Returns the captured group. -/
def fenceAt (o c : Char) (s : List Char) : Option (List Char) :=
  match s with
  | '`' :: '`' :: '`' :: s1 =>
    let s2 := match s1 with
      | 'j' :: 's' :: 'o' :: 'n' :: r => r
      | _ => s1
    let s3 := skipWs s2
    match s3 with
    | c0 :: _ =>
      if c0 = o then
        match ((List.range s3.length).filter
            (fun j => (s3.get? j == some c) && startsWithTicks (skipWs (s3.drop (j + 1))))).getLast? with
        | some j => some (s3.take (j + 1))
        | none => none
      else none
    | [] => none
  | _ => none

/-- `re.search` over the whole text: first start position with a full match wins. -/
def fenceSearch (o c : Char) : List Char → Option (List Char)
  | [] => none
  | ch :: rest =>
    match fenceAt o c (ch :: rest) with
    | some g => some g
    | none => fenceSearch o c rest

/-- The depth-counting scan of the fallback branch: starting from the first
opening delimiter, track nesting depth and stop at the closer that returns the
depth to zero.  `acc` is the span consumed so far, `depth` the running depth. -/
def scanClose (o c : Char) (acc : List Char) (depth : Int) : List Char → Option (List Char)
  | [] => none
  | ch :: rest =>
    let depth1 := if ch = o then depth + 1 else if ch = c then depth - 1 else depth
    if ch = c ∧ depth1 = 0 then some (acc ++ [ch])
    else scanClose o c (acc ++ [ch]) depth1 rest

/-- `IndustryChainService._extract_json_object`. -/
def extractJsonObject (text : String) : Except String String :=
  match fenceSearch '{' '}' text.toList with
  | some g => .ok (String.mk g)
  | none =>
    let tl := text.toList.dropWhile (· ≠ '{')
    if tl = [] then .error "LLM 未返回有效的 JSON 产业链结构"
    else
      match scanClose '{' '}' [] 0 tl with
      | some g => .ok (String.mk g)
      | none => .error "LLM 返回的 JSON 括号不匹配"

/-- `IndustryChainService._extract_json_array`. -/
def extractJsonArray (text : String) : Except String String :=
  match fenceSearch '[' ']' text.toList with
  | some g => .ok (String.mk g)
  | none =>
    let tl := text.toList.dropWhile (· ≠ '[')
    if tl = [] then .error "LLM 未返回有效的 JSON 数组"
    else
      match scanClose '[' ']' [] 0 tl with
      | some g => .ok (String.mk g)
      | none => .error "LLM 返回的 JSON 数组括号不匹配"

/-! ## Spec-side extractor (amended contract, for the refinement comparison)

Written from the amended specification text: the fenced-block attempt first,
then the depth-counting fallback described positionally — the matching closer
is the first position at which the running delimiter depth returns to zero —
and fixed error messages. -/

/-- Net delimiter depth of a character list (spec formulation). -/
def runDepth (o c : Char) (cs : List Char) : Int :=
  cs.foldl (fun d ch => if ch = o then d + 1 else if ch = c then d - 1 else d) 0

/-- Spec formulation of the matching closer: the first index `j` such that the
character there is the closing delimiter and the depth over the prefix up to
and including `j` is zero. -/
def specCloseIdx (o c : Char) (cs : List Char) : Option Nat :=
  (List.range cs.length).find?
    (fun j => (cs.get? j == some c) && (runDepth o c (cs.take (j + 1)) == 0))

/-- The object extractor as the amended specification describes it. -/
def specExtractObject (text : String) : Except String String :=
  match fenceSearch '{' '}' text.toList with
  | some g => .ok (String.mk g)
  | none =>
    let tl := text.toList.dropWhile (· ≠ '{')
    if tl = [] then .error "LLM 未返回有效的 JSON 产业链结构"
    else
      match specCloseIdx '{' '}' tl with
      | some j => .ok (String.mk (tl.take (j + 1)))
      | none => .error "LLM 返回的 JSON 括号不匹配"

/-- The array extractor as the amended specification describes it. -/
def specExtractArray (text : String) : Except String String :=
  match fenceSearch '[' ']' text.toList with
  | some g => .ok (String.mk g)
  | none =>
    let tl := text.toList.dropWhile (· ≠ '[')
    if tl = [] then .error "LLM 未返回有效的 JSON 数组"
    else
      match specCloseIdx '[' ']' tl with
      | some j => .ok (String.mk (tl.take (j + 1)))
      | none => .error "LLM 返回的 JSON 数组括号不匹配"

/-! ## Keyword generation (`_generate_keywords` and the refine-mode variant)

The language-model invocation primitive `invoke_llm_with_fallback` is an
external collaborator; its outcome (returned text, or a raised exception with
its message) is an `Except String String` input. -/

/-- The bracketed span `text[text.find("["), text.rfind("]") + 1]`, when both
delimiters are present. -/
def bracketSlice (t : String) : Option String :=
  match pyFindChar t '[', pyRFindChar t ']' with
  | some i, some j => some (pySlice t i (j + 1))
  | _, _ => none

/-- The deterministic default keyword set of `_generate_keywords`. -/
def defaultKeywords (query : String) : List String :=
  [query ++ " 产业链 核心环节 上下游",
   query ++ " 关键技术 核心材料",
   query ++ " 市场规模 竞争格局",
   query ++ " 头部企业 供应商",
   query ++ " 政策趋势 行业动态"]

/-- `IndustryChainService._generate_keywords`: parse a JSON array out of the
model's reply; any failure (exception, missing brackets, parse failure,
non-list, empty list) falls back to the default keyword set. -/
def generateKeywords (query : String) (llm : Except String String) : List String :=
  match llm with
  | .error _ => defaultKeywords query
  | .ok text =>
    match bracketSlice text with
    | none => defaultKeywords query
    | some s =>
      match jsonLoads s with
      | some (.arr ks) =>
        if ks.length > 0 then (ks.take 5).map pyStr else defaultKeywords query
      | _ => defaultKeywords query

/-- The refine-mode keyword generation inlined in `generate_stream` (step 2a):
parse a JSON array and keep at most 3 entries; any failure falls back to the
single keyword `query feedback`. -/
def refineKeywords (query feedback : String) (llm : Except String String) : List String :=
  match llm with
  | .error _ => [query ++ " " ++ feedback]
  | .ok text =>
    match bracketSlice text with
    | none => [query ++ " " ++ feedback]
    | some s =>
      match jsonLoads s with
      | some (.arr ks) => (ks.take 3).map pyStr
      | _ => [query ++ " " ++ feedback]

/-! ## The tree data model (`app/models/industry_chain.py`) and its validation -/

/-- `IndustryChainNode`: recursive tree node. -/
inductive Node where
  | mk : (name : String) → (description : String) → (type : String) →
      (children : List Node) → Node

/-- `IndustryChainTree`: top-level structure. -/
structure Tree where
  industry_name : String
  description : String
  children : List Node

/-- Last-occurrence field lookup (Python dicts built by `json.loads` keep the
last duplicate key). -/
def objGet (kvs : List (String × Json)) (k : String) : Option Json :=
  (kvs.reverse.find? (fun p => p.1 == k)).map Prod.snd

/-- Validate a string-typed field with a default for a missing key
(pydantic: present keys must be strings, absent keys take the default). -/
def strField (kvs : List (String × Json)) (k : String) (dflt : String) : Option String :=
  match objGet kvs k with
  | none => some dflt
  | some (.str s) => some s
  | some _ => none

mutual

/-- pydantic validation of one `IndustryChainNode` from a parsed JSON value:
`name` is a required string, `description`/`type` default to `""`,
`children` defaults to `[]`; extra keys are ignored. -/
def nodeOfJson (fuel : Nat) (j : Json) : Option Node :=
  match fuel with
  | 0 => none
  | fuel + 1 =>
    match j with
    | .obj kvs =>
      match objGet kvs "name" with
      | some (.str name) =>
        match strField kvs "description" "" with
        | none => none
        | some descr =>
          match strField kvs "type" "" with
          | none => none
          | some ty =>
            match objGet kvs "children" with
            | none => some (.mk name descr ty [])
            | some (.arr cs) =>
              (match nodesOfJson fuel cs with
              | some children => some (.mk name descr ty children)
              | none => none)
            | some _ => none
      | _ => none
    | _ => none

/-- Validate a list of child nodes. -/
def nodesOfJson (fuel : Nat) : List Json → Option (List Node)
  | [] => some []
  | j :: js =>
    match nodeOfJson fuel j with
    | none => none
    | some n =>
      match nodesOfJson fuel js with
      | some ns => some (n :: ns)
      | none => none

end

/-- Structural size bound used as validation fuel. -/
def jsonSize : Json → Nat
  | .null | .bool _ | .num _ | .str _ => 1
  | .arr xs => 1 + jsonSizeList xs
  | .obj kvs => 1 + jsonSizeObj kvs
where
  jsonSizeList : List Json → Nat
    | [] => 0
    | x :: xs => jsonSize x + jsonSizeList xs
  jsonSizeObj : List (String × Json) → Nat
    | [] => 0
    | (_, v) :: kvs => jsonSize v + jsonSizeObj kvs

/-- pydantic validation of an `IndustryChainTree` from a parsed JSON value:
`industry_name` is a required string, `description` defaults to `""`,
`children` defaults to `[]`. -/
def treeOfJson (j : Json) : Option Tree :=
  match j with
  | .obj kvs =>
    match objGet kvs "industry_name" with
    | some (.str iname) =>
      match strField kvs "description" "" with
      | none => none
      | some descr =>
        match objGet kvs "children" with
        | none => some ⟨iname, descr, []⟩
        | some (.arr cs) =>
          (match nodesOfJson (jsonSize (.arr cs)) cs with
          | some children => some ⟨iname, descr, children⟩
          | none => none)
        | some _ => none
    | _ => none
  | _ => none

/-- `IndustryChainTree.model_validate_json`: parse, then validate. -/
def validateTree (s : String) : Option Tree :=
  match jsonLoads s with
  | some j => treeOfJson j
  | none => none

mutual

/-- `IndustryChainNode.model_dump()` (field insertion order of the model). -/
def nodeDump : Node → Json
  | .mk name descr ty children =>
    .obj [("name", .str name), ("description", .str descr), ("type", .str ty),
          ("children", .arr (nodesDump children))]

/-- Dump a list of child nodes. -/
def nodesDump : List Node → List Json
  | [] => []
  | n :: ns => nodeDump n :: nodesDump ns

end

/-- `IndustryChainTree.model_dump()`. -/
def treeDump (t : Tree) : Json :=
  .obj [("industry_name", .str t.industry_name), ("description", .str t.description),
        ("children", .arr (nodesDump t.children))]

/-! ## Events (`IndustryChainEvent`, `IndustryChainEventType`) -/

/-- `IndustryChainEventType` (fixed SSE vocabulary). -/
inductive EventType where
  | started | searching | keyword_generated | web_searching | web_result
  | progress | analyzing | generating | completed | error
deriving DecidableEq

/-- `IndustryChainEvent`.  The wall-clock `timestamp` field is not modelled
(no claim concerns it); `data` is the JSON payload in insertion order. -/
structure Event where
  event_type : EventType
  sequence_number : Nat
  data : List (String × Json)
  message : Option String

/-- `IndustryChainService._make_event` (with the wall-clock timestamp elided). -/
def mkEvent (t : EventType) (seq : Nat) (data : List (String × Json))
    (message : Option String) : Event :=
  ⟨t, seq, data, message⟩

/-- `IndustryChainService._make_progress_event`. -/
def mkProgressEvent (seq : Nat) (stepName : String) (completedSteps totalSteps pct : Nat) :
    Event :=
  mkEvent .progress seq
    [("step_name", .str stepName), ("completed_steps", .num completedSteps),
     ("total_steps", .num totalSteps), ("percentage", .num pct)]
    (some stepName)

/-- A terminal event (`completed` or `error`). -/
def isTerminal (e : Event) : Bool :=
  e.event_type == .completed || e.event_type == .error

/-- First-occurrence field lookup in an event payload. -/
def getField (e : Event) (k : String) : Option Json :=
  (e.data.find? (fun p => p.1 == k)).map Prod.snd

/-! ## Search collaborator interface

`bocha_web_search` is an external collaborator.  A successful per-keyword
result carries the web pages and the formatted text; `_search_one` converts a
raised exception into an error outcome without losing the keyword.  The
concurrent fan-out (`asyncio.as_completed`) is modelled by the list of
per-keyword outcomes in completion order. -/

/-- One webpage entry of a search result. -/
structure Webpage where
  name : String
  url : String
  siteName : String
deriving DecidableEq

/-- A successful `bocha_web_search` result. -/
structure SearchOk where
  webpages : List Webpage
  formatted_text : String
deriving DecidableEq

/-- The `{title, url, siteName}` source entry built from a webpage. -/
def pageJson (p : Webpage) : Json :=
  .obj [("title", .str p.name), ("url", .str p.url), ("siteName", .str p.siteName)]

/-- The per-event `sources` payload: entries for pages with a non-empty URL. -/
def sourcesJson (pages : List Webpage) : Json :=
  .arr ((pages.filter (fun p => p.url ≠ "")).map pageJson)

/-! ## Analyze phase (`analyze_stream`) -/

/-- Output of the analyze search loop: the emitted events, the final sequence
counter, and the `all_webpages` / `all_formatted` accumulators. -/
structure AnalyzeLoopOut where
  events : List Event
  seq : Nat
  webpages : List Webpage
  formatted : List String

/-- The `asyncio.as_completed` loop of `analyze_stream` (step 6): one
`WEB_RESULT` plus one `PROGRESS` event per completed keyword search, in
completion order. `kwCount` is `len(keywords)`, `seq`/`completed` the counters. -/
def analyzeLoop (kwCount : Nat) : List (String × Option SearchOk) → Nat → Nat → AnalyzeLoopOut
  | [], seq, _ => ⟨[], seq, [], []⟩
  | (keyword, out) :: rest, seq, completed =>
    let completed1 := completed + 1
    let pct := 20 + 40 * completed1 / kwCount
    let progressEv := fun s => mkProgressEvent s
      ("已完成 " ++ toString completed1 ++ "/" ++ toString kwCount ++ " 个关键词搜索") 2 5 pct
    match out with
    | none =>
      let ev1 := mkEvent .web_result (seq + 1)
        [("keyword", .str keyword), ("result_count", .num 0)]
        (some ("关键词「" ++ keyword ++ "」搜索失败"))
      let r := analyzeLoop kwCount rest (seq + 2) completed1
      ⟨ev1 :: progressEv (seq + 2) :: r.events, r.seq, r.webpages, r.formatted⟩
    | some res =>
      let ev1 := mkEvent .web_result (seq + 1)
        [("keyword", .str keyword), ("result_count", .num res.webpages.length),
         ("sources", sourcesJson res.webpages)]
        (some ("关键词「" ++ keyword ++ "」搜索到 " ++ toString res.webpages.length ++ " 条结果"))
      let r := analyzeLoop kwCount rest (seq + 2) completed1
      let fmt := if res.formatted_text ≠ "" ∧ res.formatted_text ≠ "未找到相关结果。"
        then res.formatted_text :: r.formatted else r.formatted
      ⟨ev1 :: progressEv (seq + 2) :: r.events, r.seq, res.webpages ++ r.webpages, fmt⟩

/-- The source-list deduplication of `analyze_stream` (step 11): iterate the
collected webpages keeping the first occurrence of each non-empty URL. -/
def dedupGo : List Webpage → List String → List Json
  | [], _ => []
  | p :: rest, seen =>
    if p.url ≠ "" ∧ p.url ∉ seen then pageJson p :: dedupGo rest (p.url :: seen)
    else dedupGo rest seen

/-- The deduplicated source list delivered in the `COMPLETED` event. -/
def dedupSources (pages : List Webpage) : List Json := dedupGo pages []

/-- Events 1–5 of `analyze_stream` (up to the start of the search fan-out). -/
def analyzeHead (query : String) (keywords : List String) : List Event :=
  [mkEvent .started 1 [("query", .str query)] (some ("开始分析产业链: " ++ query)),
   mkProgressEvent 2 "正在生成搜索关键词" 0 5 10,
   mkEvent .keyword_generated 3 [("keywords", .arr (keywords.map .str))]
     (some ("已生成 " ++ toString keywords.length ++ " 个搜索关键词")),
   mkProgressEvent 4 "开始搜索网络信息" 1 5 20]

/-- Events of `analyze_stream` after the search fan-out: progress, `ANALYZING`,
progress, then — depending on the understanding LLM call — either the two
success events or the single `ERROR` event produced by the outer
`except` handler of the generator (sequence counter incremented once). -/
def analyzeTail (seqL : Nat) (allW : List Webpage) (allF : List String)
    (undLLM : Except String String) : List Event :=
  let e5 := mkProgressEvent (seqL + 1) "搜索完成，正在整合资料" 3 5 60
  let e6 := mkEvent .analyzing (seqL + 2) [("source_count", .num allW.length)]
    (some ("已获取 " ++ toString allW.length ++ " 条搜索结果，正在生成产业链理解"))
  let e7 := mkProgressEvent (seqL + 3) "正在生成产业链理解" 4 5 75
  match undLLM with
  | .error _ =>
    [e5, e6, e7, mkEvent .error (seqL + 4) [] (some "产业链分析失败，请稍后重试")]
  | .ok understanding =>
    [e5, e6, e7,
     mkProgressEvent (seqL + 4) "分析完成" 5 5 100,
     mkEvent .completed (seqL + 5)
       [("success", .bool true), ("understanding", .str understanding),
        ("sources", .arr (dedupSources allW))]
       (some "产业链分析完成，请确认理解内容")]

/-- `IndustryChainService.analyze_stream`: the full event stream, as a function
of the request query and the collaborator outcomes (keyword LLM call, search
completions in completion order, understanding LLM call). -/
def analyzeStream (query : String) (kwLLM : Except String String)
    (completions : List (String × Option SearchOk))
    (undLLM : Except String String) : List Event :=
  let keywords := generateKeywords query kwLLM
  let loop := analyzeLoop keywords.length completions 4 0
  analyzeHead query keywords ++ loop.events ++
    analyzeTail loop.seq loop.webpages loop.formatted undLLM

/-! ## Generate / Refine phase (`generate_stream`) -/

/-- `IndustryChainGenerateRequest`: `tree` is the raw request dict (parsed
JSON), `feedback` the optional feedback string. -/
structure GenerateRequest where
  query : String
  understanding : String
  tree : Option Json
  feedback : Option String

/-- Output of the refine-mode search loop. -/
structure RefineLoopOut where
  events : List Event
  seq : Nat
  formatted : List String

/-- The `asyncio.as_completed` loop of refine mode (step 2b). -/
def refineLoop (kwCount : Nat) : List (String × Option SearchOk) → Nat → Nat → RefineLoopOut
  | [], seq, _ => ⟨[], seq, []⟩
  | (keyword, out) :: rest, seq, completed =>
    let completed1 := completed + 1
    let pct := 25 + 25 * completed1 / kwCount
    let progressEv := fun s => mkProgressEvent s
      ("已完成 " ++ toString completed1 ++ "/" ++ toString kwCount ++ " 个补充搜索") 1 4 pct
    match out with
    | none =>
      let ev1 := mkEvent .web_result (seq + 1)
        [("keyword", .str keyword), ("result_count", .num 0)]
        (some ("关键词「" ++ keyword ++ "」补充搜索失败"))
      let r := refineLoop kwCount rest (seq + 2) completed1
      ⟨ev1 :: progressEv (seq + 2) :: r.events, r.seq, r.formatted⟩
    | some res =>
      let ev1 := mkEvent .web_result (seq + 1)
        [("keyword", .str keyword), ("result_count", .num res.webpages.length),
         ("sources", sourcesJson res.webpages)]
        (some ("关键词「" ++ keyword ++ "」搜索完成"))
      let r := refineLoop kwCount rest (seq + 2) completed1
      let fmt := if res.formatted_text ≠ "" ∧ res.formatted_text ≠ "未找到相关结果。"
        then res.formatted_text :: r.formatted else r.formatted
      ⟨ev1 :: progressEv (seq + 2) :: r.events, r.seq, fmt⟩

/-- The JSON example block shared verbatim by `CHAIN_PROMPT` and
`REFINE_PROMPT` (after Python `format` unescapes the doubled braces). -/
def treeFormatExample : String :=
  "\x7b\n  \"industry_name\": \"产业名称\",\n  \"description\": \"产业概述\",\n  \"children\": [\n    \x7b\n      \"name\": \"上游\",\n      \"description\": \"...\",\n      \"type\": \"上游\",\n      \"children\": [\n        \x7b\"name\": \"子领域\", \"description\": \"...\", \"type\": \"细分领域\", \"children\": []\x7d\n      ]\n    \x7d\n  ]\n\x7d"

/-- `CHAIN_PROMPT.format(query=..., understanding=...)`. -/
def chainPrompt (query understanding : String) : String :=
  "你是一个产业链分析专家。根据以下产业链分析理解，为\"" ++ query ++
  "\"生成一个完整的多层级产业链树形结构。\n\n产业链分析理解：\n" ++ understanding ++
  "\n\n要求：\n1. 第一层通常为：上游（原材料/核心部件）、中游（制造/集成）、下游（应用/终端市场）\n2. 每层下面细分具体的子领域，至少 2-3 层嵌套\n3. 每个节点包含 name（名称）、description（简短描述）、type（节点类型）、children（子节点数组）\n4. type 字段使用：上游、中游、下游、细分领域、原材料、核心部件、制造、应用 等标签\n5. 确保结构完整、层次清晰，覆盖该产业的主要环节\n\n请严格按以下 JSON 格式输出，不要包含其他内容：\n" ++
  treeFormatExample

/-- `REFINE_PROMPT.format(query=..., current_tree=..., feedback=..., search_context=...)`. -/
def refinePromptBuild (query currentTree feedback searchContext : String) : String :=
  "你是一个产业链分析专家。用户对当前的\"" ++ query ++
  "\"产业链结构不满意，请根据用户的修改意见和补充搜索资料调整产业链树。\n\n当前产业链结构：\n" ++
  currentTree ++ "\n\n用户修改意见：\n" ++ feedback ++ "\n\n补充搜索资料：\n" ++ searchContext ++
  "\n\n要求：\n1. 仅根据用户意见做针对性修改，不要大幅重构未提及的部分\n2. 优先使用搜索资料中的真实信息（企业名、技术名、数据等），避免凭空编造\n3. 保持原有结构的合理部分不变\n4. 每个节点包含 name、description、type、children 字段\n5. 输出格式与原结构一致\n\n请严格按以下 JSON 格式输出，不要包含其他内容：\n" ++
  treeFormatExample

/-- The synthesis prompt `generate_stream` passes to the language model:
refine mode builds `REFINE_PROMPT` from the serialized current tree, the
feedback and the (truncated) supplementary search context; generate mode
builds `CHAIN_PROMPT` from the understanding narrative. -/
def generatePrompt (req : GenerateRequest) (kwLLM : Except String String)
    (completions : List (String × Option SearchOk)) : String :=
  match req.tree, req.feedback with
  | some t, some f =>
    let kws := refineKeywords req.query f kwLLM
    let loop := refineLoop kws.length completions 4 0
    let searchContext :=
      if loop.formatted ≠ [] then String.intercalate "\n\n" loop.formatted else "未找到补充资料。"
    refinePromptBuild req.query (pyJsonDumps t) f (pyTake searchContext 10000)
  | _, _ => chainPrompt req.query req.understanding

/-- One iteration of the bounded-retry synthesis loop of `generate_stream`:
call the model, extract the JSON object, validate the tree; any failure makes
the attempt unsuccessful. -/
def attemptOnce (llm : Nat → Except String String) (n : Nat) : Option Tree :=
  match llm n with
  | .error _ => none
  | .ok text =>
    match extractJsonObject text with
    | .error _ => none
    | .ok js => validateTree js

/-- The retry loop `for attempt in range(1, max_attempts + 1)`: returns the
first successful tree (if any) and the number of invocation attempts made. -/
def synthGo (llm : Nat → Except String String) : Nat → Nat → Option Tree × Nat
  | _, 0 => (none, 0)
  | start, r + 1 =>
    match attemptOnce llm start with
    | some t => (some t, 1)
    | none =>
      let p := synthGo llm (start + 1) r
      (p.1, p.2 + 1)

/-- Final events of `generate_stream`: `COMPLETED` with the dumped tree on
success; on exhausted retries the raised `ValueError` is converted by the
outer `except` handler into a single `ERROR` event. -/
def generateTail (seqS : Nat) (res : Option Tree) : List Event :=
  match res with
  | some t =>
    [mkEvent .completed (seqS + 1)
      [("success", .bool true), ("tree", treeDump t)] (some "产业链生成完成")]
  | none =>
    [mkEvent .error (seqS + 1) [] (some "产业链生成失败，请稍后重试")]

/-- Events 1–4 of refine mode. -/
def refineHead (query : String) (kws : List String) : List Event :=
  [mkEvent .started 1 [("query", .str query), ("mode", .str "refine")]
     (some ("开始修改产业链结构: " ++ query)),
   mkProgressEvent 2 "正在根据修改意见生成搜索关键词" 0 4 10,
   mkEvent .keyword_generated 3 [("keywords", .arr (kws.map .str))]
     (some ("已生成 " ++ toString kws.length ++ " 个补充搜索关键词")),
   mkProgressEvent 4 "正在搜索补充资料" 1 4 25]

/-- `IndustryChainService.generate_stream`: the full event stream.  Mode is
selected by presence of both `tree` and `feedback`; `synth` is the synthesis
language-model collaborator, indexed by the prompt and the attempt number. -/
def generateStream (req : GenerateRequest) (kwLLM : Except String String)
    (completions : List (String × Option SearchOk))
    (synth : String → Nat → Except String String) : List Event :=
  match req.tree, req.feedback with
  | some _, some f =>
    let kws := refineKeywords req.query f kwLLM
    let loop := refineLoop kws.length completions 4 0
    let res := synthGo (synth (generatePrompt req kwLLM completions)) 1 2
    refineHead req.query kws ++ loop.events ++
      [mkProgressEvent (loop.seq + 1) "正在根据修改意见调整产业链结构" 2 4 55] ++
      generateTail (loop.seq + 1) res.1
  | _, _ =>
    let res := synthGo (synth (generatePrompt req kwLLM completions)) 1 2
    [mkEvent .started 1 [("query", .str req.query), ("mode", .str "generate")]
       (some ("开始生成产业链结构: " ++ req.query)),
     mkEvent .generating 2 [] (some "正在根据产业链理解生成树形结构")] ++
      generateTail 2 res.1

/-! ## SSE wrapper (`endpoint_industry_chain._sse_wrapper`)

The wrapper forwards the generator's events (their two-line text-event-stream
framing is elided); if the generator raises, it appends exactly one generic
`ERROR` event numbered one past the running maximum.  `escape` carries the
internal detail text of an exception escaping the pipeline body, if any. -/

/-- The wrapper's running sequence maximum `seq = max(seq, event.sequence_number)`. -/
def maxSeq (events : List Event) : Nat :=
  events.foldl (fun m e => max m e.sequence_number) 0

/-- `_sse_wrapper`, at event granularity. -/
def sseWrapper (events : List Event) (escape : Option String) : List Event :=
  match escape with
  | none => events
  | some _ =>
    events ++ [mkEvent .error (maxSeq events + 1) [] (some "服务内部错误，请稍后重试")]

/-! ## Enterprise lookup (`search_related_enterprises` and its endpoint) -/

/-- The 3 fixed-pattern search queries of `search_related_enterprises`. -/
def enterpriseQueries (nodeName chainDefinition : String) : List String :=
  [nodeName ++ " 代表企业 龙头公司",
   nodeName ++ " " ++ pyTake chainDefinition 50 ++ " 相关企业 供应商",
   nodeName ++ " 行业企业 市场份额 竞争格局"]

/-- `ENTERPRISE_EXTRACT_PROMPT.format(node_name=..., chain_definition=..., search_context=...)`
(the full Chinese instruction text is abbreviated to its frame; no claim
depends on its wording). -/
def enterprisePrompt (nodeName chainDefinition searchContext : String) : String :=
  "你是一个产业链研究专家。根据以下搜索资料，提取与\"" ++ nodeName ++
  "\"节点相关的企业信息。\n\n产业链背景：" ++ chainDefinition ++
  "\n\n搜索资料：\n" ++ searchContext ++
  "\n\n要求：\n1. 提取与该产业链节点直接相关的企业，包括上下游供应商、制造商、服务商等\n2. 每个企业包含以下字段：\n   - name: 企业全称（必须使用工商注册的完整公司名称，如\"宁德时代新能源科技股份有限公司\"，不要使用简称如\"宁德时代\"）\n   - description: 一句话简介（主营业务）\n   - role: 在该产业链节点中的角色/定位\n3. 只提取搜索资料中明确提到的真实企业，不要编造。如果搜索资料中只有简称，请根据你的知识补全为工商注册全称\n4. 按相关性排序，最多返回 15 家企业\n5. 如果搜索资料中没有找到相关企业，返回空数组 []\n\n请严格按以下 JSON 数组格式输出，不要包含其他内容：\n[\n  \x7b\"name\": \"企业名称\", \"description\": \"企业简介\", \"role\": \"产业链角色\"\x7d\n]"

/-- One iteration of the enterprise-extraction retry loop: call the model,
extract the JSON array, `json.loads` it, require a list, keep at most 15. -/
def enterpriseAttemptOnce (llm : Nat → Except String String) (n : Nat) :
    Option (List Json) :=
  match llm n with
  | .error _ => none
  | .ok text =>
    match extractJsonArray text with
    | .error _ => none
    | .ok js =>
      match jsonLoads js with
      | some (.arr xs) => some (xs.take 15)
      | _ => none

/-- The bounded-retry loop of enterprise extraction (result and attempt count). -/
def enterpriseGo (llm : Nat → Except String String) : Nat → Nat → Option (List Json) × Nat
  | _, 0 => (none, 0)
  | start, r + 1 =>
    match enterpriseAttemptOnce llm start with
    | some xs => (some xs, 1)
    | none =>
      let p := enterpriseGo llm (start + 1) r
      (p.1, p.2 + 1)

/-- The merged search context of `search_related_enterprises`: formatted texts
of the settled searches (failures skipped, empty and no-result texts skipped),
with the fixed fallback text when nothing was collected. -/
def enterpriseContext (completions : List (String × Option SearchOk)) : String :=
  let allF := completions.flatMap (fun cpl =>
    match cpl.2 with
    | some r =>
      if r.formatted_text ≠ "" ∧ r.formatted_text ≠ "未找到相关结果。"
      then [r.formatted_text] else []
    | none => [])
  if allF ≠ [] then String.intercalate "\n\n" allF else "未找到相关搜索结果。"

/-- `IndustryChainService.search_related_enterprises`: merge the formatted
texts of the settled searches, build the extraction prompt over the truncated
context, run the 2-attempt extraction loop, and fail the whole call when no
attempt yields a JSON list.  (The Python error message appends the last
internal exception; that detail is elided.) -/
def searchRelatedEnterprises (nodeName chainDefinition : String)
    (completions : List (String × Option SearchOk))
    (llm : String → Nat → Except String String) : Except String (List Json) :=
  match enterpriseGo
      (llm (enterprisePrompt nodeName chainDefinition
        (pyTake (enterpriseContext completions) 15000))) 1 2 with
  | (some xs, _) => .ok xs
  | (none, _) => .error "LLM 多次未返回有效的企业列表"

/-- An enterprise record `{name, description, role}`. -/
structure Enterprise where
  name : String
  description : String
  role : String
deriving DecidableEq

/-- Modelled from the spec: the `Enterprise` data model of §3 —
`EnterpriseSearchRequest` / `EnterpriseSearchResponse` are imported by
`endpoint_industry_chain.py` but their definitions are missing from the
sources; per §3 an Enterprise is `{name, description, role}`, so the response
model validates each returned entry into such a record. -/
def enterpriseOfJson (j : Json) : Option Enterprise :=
  match j with
  | .obj kvs =>
    match objGet kvs "name", objGet kvs "description", objGet kvs "role" with
    | some (.str n), some (.str d), some (.str r) => some ⟨n, d, r⟩
    | _, _, _ => none
  | _ => none

/-- Validate every returned entry (the response model validates the list
elementwise; one invalid entry fails the response). -/
def validateEnterprises : List Json → Option (List Enterprise)
  | [] => some []
  | j :: js =>
    match enterpriseOfJson j with
    | none => none
    | some e =>
      match validateEnterprises js with
      | some es => some (e :: es)
      | none => none

/-- The `search-enterprises` endpoint: run the service call and validate the
response payload; any failure (exhausted retries, or response-model
validation) is converted to the generic HTTP 500 failure. -/
def searchEnterprisesEndpoint (nodeName chainDefinition : String)
    (completions : List (String × Option SearchOk))
    (llm : String → Nat → Except String String) : Except String (List Enterprise) :=
  match searchRelatedEnterprises nodeName chainDefinition completions llm with
  | .error _ => .error "企业搜索失败，请稍后重试"
  | .ok xs =>
    match validateEnterprises xs with
    | some es => .ok es
    | none => .error "企业搜索失败，请稍后重试"

/-! ## Spec-side source deduplication (for the refinement comparison of C9) -/

/-- The deduplicated union of source URLs as §4.1 of the spec words it:
left fold over the collected webpages, keeping a page exactly when its URL is
non-empty and no already-kept page has the same URL (first occurrence wins,
first-seen order). -/
def specDedupUrls (pages : List Webpage) : List Webpage :=
  pages.foldl
    (fun acc p => if p.url ≠ "" ∧ acc.all (fun q => q.url ≠ p.url) then acc ++ [p] else acc)
    []

/-- The webpages collected across a fan-out, in completion order. -/
def webpagesOf (completions : List (String × Option SearchOk)) : List Webpage :=
  completions.flatMap (fun cpl =>
    match cpl.2 with
    | some r => r.webpages
    | none => [])

/-! ## Stream-level properties -/

/-- The events' sequence numbers are exactly `s+1, s+2, …` in order. -/
def SeqFrom (s : Nat) (evs : List Event) : Prop :=
  evs.map Event.sequence_number = List.range' (s + 1) evs.length

/-- The stream invariant of §8: strictly increasing sequence numbers starting
at 1, and exactly one terminal event, which is the last event of the stream. -/
def streamInvariant (evs : List Event) : Prop :=
  List.Chain' (· < ·) (evs.map Event.sequence_number) ∧
  evs.head?.map Event.sequence_number = some 1 ∧
  evs.countP isTerminal = 1 ∧
  ∃ t, evs.getLast? = some t ∧ isTerminal t = true

/-- Bool test for `web_result` events. -/
def isWebResult (e : Event) : Bool := e.event_type == .web_result

/-!
# Theorems

Generic helpers first, then per-component lemmas, then the claim theorems.
-/

/-- `range'` helper in the step-1 form used throughout. -/
theorem range1_append (s m n : Nat) :
    List.range' s m ++ List.range' (s + m) n = List.range' s (m + n) := by
  have h := List.range'_append s m n 1
  rw [Nat.one_mul] at h
  rw [Nat.add_comm n m] at h
  exact h

theorem chain'_lt_range1 (s n : Nat) : List.Chain' (· < ·) (List.range' s n) := by
  cases n with
  | zero => simp
  | succ n =>
    rw [List.range'_succ]
    exact List.chain_lt_range' s n (by omega)

theorem seqFrom_append {s : Nat} {xs ys : List Event} (hx : SeqFrom s xs)
    (hy : SeqFrom (s + xs.length) ys) : SeqFrom s (xs ++ ys) := by
  unfold SeqFrom at *
  rw [List.map_append, hx, hy, List.length_append]
  rw [show s + xs.length + 1 = s + 1 + xs.length by omega]
  exact range1_append (s + 1) xs.length ys.length

theorem find?_congr {α : Type} (l : List α) (p q : α → Bool) (h : ∀ a, p a = q a) :
    l.find? p = l.find? q := by
  induction l with
  | nil => rfl
  | cons a l ih => simp only [List.find?, h a]; rw [ih]

/-! ### Search-loop lemmas (analyze phase) -/

theorem analyzeLoop_seq (k : Nat) :
    ∀ (items : List (String × Option SearchOk)) (s c : Nat),
      (analyzeLoop k items s c).seq = s + 2 * items.length := by
  intro items
  induction items with
  | nil => intro s c; simp [analyzeLoop]
  | cons it rest ih =>
    intro s c
    obtain ⟨kw, out⟩ := it
    cases out <;> simp [analyzeLoop, ih] <;> omega

theorem analyzeLoop_events_len (k : Nat) :
    ∀ (items : List (String × Option SearchOk)) (s c : Nat),
      (analyzeLoop k items s c).events.length = 2 * items.length := by
  intro items
  induction items with
  | nil => intro s c; simp [analyzeLoop]
  | cons it rest ih =>
    intro s c
    obtain ⟨kw, out⟩ := it
    cases out <;> simp [analyzeLoop, ih] <;> omega

theorem range1_two (s n : Nat) :
    List.range' s (n + 2) = s :: (s + 1) :: List.range' (s + 2) n := by
  rw [List.range'_succ, List.range'_succ]

theorem seqFrom_two_cons {s : Nat} {ev1 ev2 : Event} {tail : List Event}
    (h1 : ev1.sequence_number = s + 1) (h2 : ev2.sequence_number = s + 2)
    (h3 : SeqFrom (s + 2) tail) : SeqFrom s (ev1 :: ev2 :: tail) := by
  unfold SeqFrom at h3 ⊢
  simp only [List.map_cons, List.length_cons, h1, h2, h3]
  rw [show tail.length + 1 + 1 = tail.length + 2 by omega, range1_two]

theorem analyzeLoop_seqFrom (k : Nat) :
    ∀ (items : List (String × Option SearchOk)) (s c : Nat),
      SeqFrom s (analyzeLoop k items s c).events := by
  intro items
  induction items with
  | nil => intro s c; simp [analyzeLoop, SeqFrom]
  | cons it rest ih =>
    intro s c
    obtain ⟨kw, out⟩ := it
    cases out <;>
      simp only [analyzeLoop] <;>
      exact seqFrom_two_cons rfl rfl (ih (s + 2) (c + 1))

theorem analyzeLoop_types (k : Nat) :
    ∀ (items : List (String × Option SearchOk)) (s c : Nat),
      ∀ e ∈ (analyzeLoop k items s c).events,
        e.event_type = .web_result ∨ e.event_type = .progress := by
  intro items
  induction items with
  | nil => intro s c e he; simp [analyzeLoop] at he
  | cons it rest ih =>
    intro s c e he
    obtain ⟨kw, out⟩ := it
    cases out <;> simp only [analyzeLoop, List.mem_cons] at he <;>
      rcases he with h | h | h <;>
      first
        | (subst h; simp [mkEvent, mkProgressEvent])
        | exact ih _ _ e h

theorem analyzeLoop_webpages (k : Nat) :
    ∀ (items : List (String × Option SearchOk)) (s c : Nat),
      (analyzeLoop k items s c).webpages = webpagesOf items := by
  intro items
  induction items with
  | nil => intro s c; simp [analyzeLoop, webpagesOf]
  | cons it rest ih =>
    intro s c
    obtain ⟨kw, out⟩ := it
    cases out <;> simp [analyzeLoop, webpagesOf, ih]

theorem analyzeLoop_countWeb (k : Nat) :
    ∀ (items : List (String × Option SearchOk)) (s c : Nat),
      (analyzeLoop k items s c).events.countP isWebResult = items.length := by
  intro items
  induction items with
  | nil => intro s c; simp [analyzeLoop]
  | cons it rest ih =>
    intro s c
    obtain ⟨kw, out⟩ := it
    cases out <;> simp [analyzeLoop, List.countP_cons, isWebResult, mkEvent, mkProgressEvent, ih]

theorem analyzeLoop_webFields (k : Nat) :
    ∀ (items : List (String × Option SearchOk)) (s c : Nat),
      ((analyzeLoop k items s c).events.filter isWebResult).map (fun e => getField e "keyword")
        = items.map (fun cpl => some (Json.str cpl.1)) := by
  intro items
  induction items with
  | nil => intro s c; simp [analyzeLoop]
  | cons it rest ih =>
    intro s c
    obtain ⟨kw, out⟩ := it
    have ih2 := fun s c => ih s c
    simp only [getField] at ih2
    cases out <;>
      simp [analyzeLoop, List.filter_cons, isWebResult, mkEvent, mkProgressEvent,
        getField, List.find?, ih2]

theorem analyzeLoop_failures (k : Nat) :
    ∀ (items : List (String × Option SearchOk)) (s c : Nat) (kw : String),
      (kw, none) ∈ items →
      ∃ e ∈ (analyzeLoop k items s c).events,
        e.event_type = .web_result ∧ getField e "keyword" = some (.str kw) ∧
        getField e "result_count" = some (.num 0) := by
  intro items
  induction items with
  | nil => intro s c kw h; simp at h
  | cons it rest ih =>
    intro s c kw h
    obtain ⟨kw0, out⟩ := it
    rcases List.mem_cons.mp h with h0 | hrest
    · obtain ⟨hk, ho⟩ := Prod.mk.inj h0
      subst hk
      subst ho
      simp only [analyzeLoop]
      exact ⟨_, List.mem_cons_self _ _, rfl, rfl, rfl⟩
    · obtain ⟨e, he, hp⟩ := ih (s + 2) (c + 1) kw hrest
      cases out <;>
        exact ⟨e, by simp only [analyzeLoop, List.mem_cons]; exact Or.inr (Or.inr he), hp⟩

/-! ### Search-loop lemmas (refine mode) -/

theorem refineLoop_seq (k : Nat) :
    ∀ (items : List (String × Option SearchOk)) (s c : Nat),
      (refineLoop k items s c).seq = s + 2 * items.length := by
  intro items
  induction items with
  | nil => intro s c; simp [refineLoop]
  | cons it rest ih =>
    intro s c
    obtain ⟨kw, out⟩ := it
    cases out <;> simp [refineLoop, ih] <;> omega

theorem refineLoop_events_len (k : Nat) :
    ∀ (items : List (String × Option SearchOk)) (s c : Nat),
      (refineLoop k items s c).events.length = 2 * items.length := by
  intro items
  induction items with
  | nil => intro s c; simp [refineLoop]
  | cons it rest ih =>
    intro s c
    obtain ⟨kw, out⟩ := it
    cases out <;> simp [refineLoop, ih] <;> omega

theorem refineLoop_seqFrom (k : Nat) :
    ∀ (items : List (String × Option SearchOk)) (s c : Nat),
      SeqFrom s (refineLoop k items s c).events := by
  intro items
  induction items with
  | nil => intro s c; simp [refineLoop, SeqFrom]
  | cons it rest ih =>
    intro s c
    obtain ⟨kw, out⟩ := it
    cases out <;>
      simp only [refineLoop] <;>
      exact seqFrom_two_cons rfl rfl (ih (s + 2) (c + 1))

theorem refineLoop_types (k : Nat) :
    ∀ (items : List (String × Option SearchOk)) (s c : Nat),
      ∀ e ∈ (refineLoop k items s c).events,
        e.event_type = .web_result ∨ e.event_type = .progress := by
  intro items
  induction items with
  | nil => intro s c e he; simp [refineLoop] at he
  | cons it rest ih =>
    intro s c e he
    obtain ⟨kw, out⟩ := it
    cases out <;> simp only [refineLoop, List.mem_cons] at he <;>
      rcases he with h | h | h <;>
      first
        | (subst h; simp [mkEvent, mkProgressEvent])
        | exact ih _ _ e h

theorem refineLoop_countWeb (k : Nat) :
    ∀ (items : List (String × Option SearchOk)) (s c : Nat),
      (refineLoop k items s c).events.countP isWebResult = items.length := by
  intro items
  induction items with
  | nil => intro s c; simp [refineLoop]
  | cons it rest ih =>
    intro s c
    obtain ⟨kw, out⟩ := it
    cases out <;> simp [refineLoop, List.countP_cons, isWebResult, mkEvent, mkProgressEvent, ih]

theorem refineLoop_webFields (k : Nat) :
    ∀ (items : List (String × Option SearchOk)) (s c : Nat),
      ((refineLoop k items s c).events.filter isWebResult).map (fun e => getField e "keyword")
        = items.map (fun cpl => some (Json.str cpl.1)) := by
  intro items
  induction items with
  | nil => intro s c; simp [refineLoop]
  | cons it rest ih =>
    intro s c
    obtain ⟨kw, out⟩ := it
    have ih2 := fun s c => ih s c
    simp only [getField] at ih2
    cases out <;>
      simp [refineLoop, List.filter_cons, isWebResult, mkEvent, mkProgressEvent,
        getField, List.find?, ih2]

theorem refineLoop_failures (k : Nat) :
    ∀ (items : List (String × Option SearchOk)) (s c : Nat) (kw : String),
      (kw, none) ∈ items →
      ∃ e ∈ (refineLoop k items s c).events,
        e.event_type = .web_result ∧ getField e "keyword" = some (.str kw) ∧
        getField e "result_count" = some (.num 0) := by
  intro items
  induction items with
  | nil => intro s c kw h; simp at h
  | cons it rest ih =>
    intro s c kw h
    obtain ⟨kw0, out⟩ := it
    rcases List.mem_cons.mp h with h0 | hrest
    · obtain ⟨hk, ho⟩ := Prod.mk.inj h0
      subst hk
      subst ho
      simp only [refineLoop]
      exact ⟨_, List.mem_cons_self _ _, rfl, rfl, rfl⟩
    · obtain ⟨e, he, hp⟩ := ih (s + 2) (c + 1) kw hrest
      cases out <;>
        exact ⟨e, by simp only [refineLoop, List.mem_cons]; exact Or.inr (Or.inr he), hp⟩

/-! ### Terminal-event helpers -/

theorem isTerminal_eq_false {e : Event}
    (h : e.event_type = .web_result ∨ e.event_type = .progress) :
    isTerminal e = false := by
  rcases h with h | h <;> simp only [isTerminal, h] <;> rfl

theorem terminal_counts {A : List Event} {t : Event} (hA : ∀ e ∈ A, isTerminal e = false) :
    (A ++ [t]).countP (fun e => e.event_type == .completed)
        = (if t.event_type == .completed then 1 else 0) ∧
    (A ++ [t]).countP (fun e => e.event_type == .error)
        = (if t.event_type == .error then 1 else 0) := by
  have hc : A.countP (fun e => e.event_type == .completed) = 0 := by
    rw [List.countP_eq_zero]
    intro e he
    have := hA e he
    simp only [isTerminal, Bool.or_eq_false_iff] at this
    simp [this.1]
  have he : A.countP (fun e => e.event_type == .error) = 0 := by
    rw [List.countP_eq_zero]
    intro e he
    have := hA e he
    simp only [isTerminal, Bool.or_eq_false_iff] at this
    simp [this.2]
  constructor <;> rw [List.countP_append] <;> simp [hc, he, List.countP_cons]

theorem streamInvariant_of (evs A : List Event) (t : Event) (h : evs = A ++ [t])
    (hA : ∀ e ∈ A, isTerminal e = false) (ht : isTerminal t = true)
    (hs : SeqFrom 0 evs) : streamInvariant evs := by
  unfold SeqFrom at hs
  refine ⟨?_, ?_, ?_, ?_⟩
  · rw [hs]; exact chain'_lt_range1 1 evs.length
  · rw [← List.head?_map, hs]
    have : evs.length = A.length + 1 := by rw [h]; simp
    rw [this, List.range'_succ]
    rfl
  · rw [h, List.countP_append]
    have hz : A.countP isTerminal = 0 := by
      rw [List.countP_eq_zero]
      intro e he
      simp [hA e he]
    simp [hz, List.countP_cons, ht]
  · exact ⟨t, by rw [h]; exact List.getLast?_concat A, ht⟩

/-! ### Analyze-stream lemmas -/

theorem analyzeHead_nonterminal (q : String) (kws : List String) :
    ∀ e ∈ analyzeHead q kws, isTerminal e = false := by
  intro e he
  simp only [analyzeHead, List.mem_cons, List.not_mem_nil, or_false] at he
  rcases he with h | h | h | h <;> subst h <;> rfl

theorem analyzeTail_split (sL : Nat) (allW : List Webpage) (allF : List String)
    (und : Except String String) :
    ∃ B t, analyzeTail sL allW allF und = B ++ [t] ∧
      (∀ e ∈ B, isTerminal e = false) ∧ isTerminal t = true ∧
      t.event_type = (match und with | .ok _ => EventType.completed | .error _ => .error) ∧
      (∀ u', und = .ok u' → getField t "sources" = some (.arr (dedupSources allW))) := by
  cases und with
  | error e =>
    refine ⟨[mkProgressEvent (sL + 1) "搜索完成，正在整合资料" 3 5 60,
      mkEvent .analyzing (sL + 2) [("source_count", .num allW.length)]
        (some ("已获取 " ++ toString allW.length ++ " 条搜索结果，正在生成产业链理解")),
      mkProgressEvent (sL + 3) "正在生成产业链理解" 4 5 75],
      mkEvent .error (sL + 4) [] (some "产业链分析失败，请稍后重试"), rfl, ?_, rfl, rfl, ?_⟩
    · intro e he
      simp only [List.mem_cons, List.not_mem_nil, or_false] at he
      rcases he with h | h | h <;> subst h <;> rfl
    · intro u' hu
      exact absurd hu (by simp)
  | ok u =>
    refine ⟨[mkProgressEvent (sL + 1) "搜索完成，正在整合资料" 3 5 60,
      mkEvent .analyzing (sL + 2) [("source_count", .num allW.length)]
        (some ("已获取 " ++ toString allW.length ++ " 条搜索结果，正在生成产业链理解")),
      mkProgressEvent (sL + 3) "正在生成产业链理解" 4 5 75,
      mkProgressEvent (sL + 4) "分析完成" 5 5 100],
      mkEvent .completed (sL + 5)
        [("success", .bool true), ("understanding", .str u),
         ("sources", .arr (dedupSources allW))]
        (some "产业链分析完成，请确认理解内容"), rfl, ?_, rfl, rfl, ?_⟩
    · intro e he
      simp only [List.mem_cons, List.not_mem_nil, or_false] at he
      rcases he with h | h | h | h <;> subst h <;> rfl
    · intro u' hu
      rfl

theorem analyzeStream_seqFrom (q : String) (kw : Except String String)
    (comps : List (String × Option SearchOk)) (und : Except String String) :
    SeqFrom 0 (analyzeStream q kw comps und) := by
  have hHead : SeqFrom 0 (analyzeHead q (generateKeywords q kw)) := rfl
  have hLoop := analyzeLoop_seqFrom (generateKeywords q kw).length comps 4 0
  have hTail : ∀ sL allW allF, SeqFrom sL (analyzeTail sL allW allF und) := by
    intro sL allW allF
    cases und <;> rfl
  have hlen := analyzeLoop_events_len (generateKeywords q kw).length comps 4 0
  have hseq := analyzeLoop_seq (generateKeywords q kw).length comps 4 0
  simp only [analyzeStream]
  refine seqFrom_append (seqFrom_append hHead ?_) ?_
  · simpa using hLoop
  · rw [hseq]
    have h2 : (0 + (analyzeHead q (generateKeywords q kw)
        ++ (analyzeLoop (generateKeywords q kw).length comps 4 0).events).length)
        = 4 + 2 * comps.length := by
      simp only [List.length_append, analyzeHead, List.length_cons, List.length_nil, hlen]
      omega
    rw [h2]
    exact hTail _ _ _

theorem analyzeStream_shape (q : String) (kw : Except String String)
    (comps : List (String × Option SearchOk)) (und : Except String String) :
    ∃ A t, analyzeStream q kw comps und = A ++ [t] ∧
      (∀ e ∈ A, isTerminal e = false) ∧ isTerminal t = true ∧
      t.event_type = (match und with | .ok _ => EventType.completed | .error _ => .error) ∧
      (∀ u', und = .ok u' → getField t "sources"
        = some (.arr (dedupSources
            (analyzeLoop (generateKeywords q kw).length comps 4 0).webpages))) := by
  obtain ⟨B, t, hB, hBn, hBt, hty, hsrc⟩ :=
    analyzeTail_split (analyzeLoop (generateKeywords q kw).length comps 4 0).seq
      (analyzeLoop (generateKeywords q kw).length comps 4 0).webpages
      (analyzeLoop (generateKeywords q kw).length comps 4 0).formatted und
  refine ⟨analyzeHead q (generateKeywords q kw)
    ++ (analyzeLoop (generateKeywords q kw).length comps 4 0).events ++ B, t, ?_, ?_, hBt, hty,
    hsrc⟩
  · simp only [analyzeStream, hB, List.append_assoc]
  · intro e he
    simp only [List.mem_append] at he
    rcases he with (h | h) | h
    · exact analyzeHead_nonterminal q _ e h
    · exact isTerminal_eq_false (analyzeLoop_types _ comps 4 0 e h)
    · exact hBn e h

theorem analyzeStream_countWeb (q : String) (kw : Except String String)
    (comps : List (String × Option SearchOk)) (und : Except String String) :
    (analyzeStream q kw comps und).countP isWebResult = comps.length := by
  have h1 : (analyzeHead q (generateKeywords q kw)).countP isWebResult = 0 := rfl
  have h2 := analyzeLoop_countWeb (generateKeywords q kw).length comps 4 0
  have h3 : ∀ sL allW allF, (analyzeTail sL allW allF und).countP isWebResult = 0 := by
    intro sL allW allF
    cases und <;> rfl
  simp only [analyzeStream, List.countP_append, h1, h2, h3]
  omega

/-! ### Generate-stream lemmas -/

theorem generateTail_split (sS : Nat) (res : Option Tree) :
    ∃ t, generateTail sS res = [t] ∧ isTerminal t = true ∧
      t.event_type = (match res with | some _ => EventType.completed | none => .error) := by
  cases res <;> exact ⟨_, rfl, rfl, rfl⟩

theorem refineHead_nonterminal (q : String) (kws : List String) :
    ∀ e ∈ refineHead q kws, isTerminal e = false := by
  intro e he
  simp only [refineHead, List.mem_cons, List.not_mem_nil, or_false] at he
  rcases he with h | h | h | h <;> subst h <;> rfl

theorem generateStream_seqFrom (req : GenerateRequest) (kwLLM : Except String String)
    (comps : List (String × Option SearchOk))
    (synth : String → Nat → Except String String) :
    SeqFrom 0 (generateStream req kwLLM comps synth) := by
  obtain ⟨q, u, tr, fb⟩ := req
  have hTail : ∀ sS r, SeqFrom sS (generateTail sS r) := by
    intro sS r
    cases r <;> rfl
  cases tr with
  | none =>
    cases fb with
    | none =>
      simp only [generateStream]
      exact seqFrom_append rfl (hTail 2 _)
    | some f =>
      simp only [generateStream]
      exact seqFrom_append rfl (hTail 2 _)
  | some t =>
    cases fb with
    | none =>
      simp only [generateStream]
      exact seqFrom_append rfl (hTail 2 _)
    | some f =>
      simp only [generateStream]
      have hseq := refineLoop_seq (refineKeywords q f kwLLM).length comps 4 0
      have hlen := refineLoop_events_len (refineKeywords q f kwLLM).length comps 4 0
      refine seqFrom_append (seqFrom_append (seqFrom_append rfl ?_) ?_) ?_
      · simpa using refineLoop_seqFrom (refineKeywords q f kwLLM).length comps 4 0
      · have h2 : (0 + (refineHead q (refineKeywords q f kwLLM)
            ++ (refineLoop (refineKeywords q f kwLLM).length comps 4 0).events).length)
            = (refineLoop (refineKeywords q f kwLLM).length comps 4 0).seq := by
          simp only [List.length_append, refineHead, List.length_cons, List.length_nil,
            hlen, hseq]
          omega
        rw [h2]
        rfl
      · have h3 : (0 + ((refineHead q (refineKeywords q f kwLLM)
            ++ (refineLoop (refineKeywords q f kwLLM).length comps 4 0).events)
            ++ [mkProgressEvent ((refineLoop (refineKeywords q f kwLLM).length comps 4 0).seq + 1)
                "正在根据修改意见调整产业链结构" 2 4 55]).length)
            = (refineLoop (refineKeywords q f kwLLM).length comps 4 0).seq + 1 := by
          simp only [List.length_append, refineHead, List.length_cons, List.length_nil,
            hlen, hseq]
          omega
        rw [h3]
        exact hTail _ _

theorem generateStream_shape (req : GenerateRequest) (kwLLM : Except String String)
    (comps : List (String × Option SearchOk))
    (synth : String → Nat → Except String String) :
    ∃ A t, generateStream req kwLLM comps synth = A ++ [t] ∧
      (∀ e ∈ A, isTerminal e = false) ∧ isTerminal t = true ∧
      t.event_type = (match (synthGo (synth (generatePrompt req kwLLM comps)) 1 2).1 with
        | some _ => EventType.completed
        | none => .error) := by
  obtain ⟨q, u, tr, fb⟩ := req
  have hGen : ∀ (mode : Option Json) (mfb : Option String),
      (generatePrompt ⟨q, u, none, mfb⟩ kwLLM comps = chainPrompt q u) := by
    intro mode mfb
    cases mfb <;> rfl
  cases tr with
  | none =>
    cases fb with
    | none =>
      obtain ⟨t, h1, h2, h3⟩ :=
        generateTail_split 2 (synthGo (synth (generatePrompt ⟨q, u, none, none⟩ kwLLM comps)) 1 2).1
      refine ⟨[mkEvent .started 1 [("query", .str q), ("mode", .str "generate")]
          (some ("开始生成产业链结构: " ++ q)),
        mkEvent .generating 2 [] (some "正在根据产业链理解生成树形结构")], t, ?_, ?_, h2, h3⟩
      · simp only [generateStream, h1]
      · intro e he
        simp only [List.mem_cons, List.not_mem_nil, or_false] at he
        rcases he with h | h <;> subst h <;> rfl
    | some f =>
      obtain ⟨t, h1, h2, h3⟩ :=
        generateTail_split 2
          (synthGo (synth (generatePrompt ⟨q, u, none, some f⟩ kwLLM comps)) 1 2).1
      refine ⟨[mkEvent .started 1 [("query", .str q), ("mode", .str "generate")]
          (some ("开始生成产业链结构: " ++ q)),
        mkEvent .generating 2 [] (some "正在根据产业链理解生成树形结构")], t, ?_, ?_, h2, h3⟩
      · simp only [generateStream, h1]
      · intro e he
        simp only [List.mem_cons, List.not_mem_nil, or_false] at he
        rcases he with h | h <;> subst h <;> rfl
  | some tj =>
    cases fb with
    | none =>
      obtain ⟨t, h1, h2, h3⟩ :=
        generateTail_split 2
          (synthGo (synth (generatePrompt ⟨q, u, some tj, none⟩ kwLLM comps)) 1 2).1
      refine ⟨[mkEvent .started 1 [("query", .str q), ("mode", .str "generate")]
          (some ("开始生成产业链结构: " ++ q)),
        mkEvent .generating 2 [] (some "正在根据产业链理解生成树形结构")], t, ?_, ?_, h2, h3⟩
      · simp only [generateStream, h1]
      · intro e he
        simp only [List.mem_cons, List.not_mem_nil, or_false] at he
        rcases he with h | h <;> subst h <;> rfl
    | some f =>
      obtain ⟨t, h1, h2, h3⟩ :=
        generateTail_split
          ((refineLoop (refineKeywords q f kwLLM).length comps 4 0).seq + 1)
          (synthGo (synth (generatePrompt ⟨q, u, some tj, some f⟩ kwLLM comps)) 1 2).1
      refine ⟨refineHead q (refineKeywords q f kwLLM)
          ++ (refineLoop (refineKeywords q f kwLLM).length comps 4 0).events
          ++ [mkProgressEvent ((refineLoop (refineKeywords q f kwLLM).length comps 4 0).seq + 1)
              "正在根据修改意见调整产业链结构" 2 4 55], t, ?_, ?_, h2, h3⟩
      · simp only [generateStream, h1, List.append_assoc]
      · intro e he
        simp only [List.mem_append, List.mem_cons, List.not_mem_nil, or_false] at he
        rcases he with (h | h) | h
        · exact refineHead_nonterminal q _ e h
        · exact isTerminal_eq_false (refineLoop_types _ comps 4 0 e h)
        · subst h; rfl

theorem generateStream_countWeb_refine (q u f : String) (tj : Json)
    (kwLLM : Except String String) (comps : List (String × Option SearchOk))
    (synth : String → Nat → Except String String) :
    (generateStream ⟨q, u, some tj, some f⟩ kwLLM comps synth).countP isWebResult
      = comps.length := by
  have h1 : (refineHead q (refineKeywords q f kwLLM)).countP isWebResult = 0 := rfl
  have h2 := refineLoop_countWeb (refineKeywords q f kwLLM).length comps 4 0
  have h3 : ∀ sS r, (generateTail sS r).countP isWebResult = 0 := by
    intro sS r
    cases r <;> rfl
  simp only [generateStream, List.countP_append, h1, h2, h3, List.countP_cons]
  simp [isWebResult, mkProgressEvent, mkEvent]

/-! ### Source-deduplication equivalence (code scan vs spec fold) -/

theorem dedupGo_spec : ∀ (pages accP : List Webpage) (seen : List String),
    (∀ v, v ∈ seen ↔ v ∈ accP.map Webpage.url) →
    accP.map pageJson ++ dedupGo pages seen
      = (pages.foldl
          (fun acc p => if p.url ≠ "" ∧ acc.all (fun q => q.url ≠ p.url) then acc ++ [p] else acc)
          accP).map pageJson := by
  intro pages
  induction pages with
  | nil => intro accP seen hseen; simp [dedupGo]
  | cons p pages ih =>
    intro accP seen hseen
    have hiff : (p.url ∉ seen) ↔ (accP.all (fun q => q.url ≠ p.url) = true) := by
      rw [hseen p.url]
      simp only [List.all_eq_true, decide_eq_true_eq, List.mem_map]
      constructor
      · intro h q hq hurl
        exact h ⟨q, hq, hurl⟩
      · rintro h ⟨q, hq, hurl⟩
        exact h q hq hurl
    simp only [dedupGo, List.foldl_cons]
    by_cases hcond : p.url ≠ "" ∧ p.url ∉ seen
    · have hcond2 : p.url ≠ "" ∧ accP.all (fun q => q.url ≠ p.url) = true :=
        ⟨hcond.1, hiff.mp hcond.2⟩
      rw [if_pos hcond, if_pos hcond2]
      have hseen2 : ∀ v, v ∈ p.url :: seen ↔ v ∈ (accP ++ [p]).map Webpage.url := by
        intro v
        simp [hseen v, or_comm]
      have := ih (accP ++ [p]) (p.url :: seen) hseen2
      rw [← this]
      simp
    · have hcond2 : ¬(p.url ≠ "" ∧ accP.all (fun q => q.url ≠ p.url) = true) := by
        intro h
        exact hcond ⟨h.1, hiff.mpr h.2⟩
      rw [if_neg hcond, if_neg hcond2]
      exact ih accP seen hseen

theorem dedupSources_eq_spec (pages : List Webpage) :
    dedupSources pages = (specDedupUrls pages).map pageJson := by
  have h := dedupGo_spec pages [] [] (by simp)
  simpa [dedupSources, specDedupUrls] using h

/-! ### Depth-counting scan vs positional specification (structured extractor) -/

theorem foldl_depth_shift (o c : Char) : ∀ (cs : List Char) (d e : Int),
    cs.foldl (fun d ch => if ch = o then d + 1 else if ch = c then d - 1 else d) (d + e)
      = d + cs.foldl (fun d ch => if ch = o then d + 1 else if ch = c then d - 1 else d) e := by
  intro cs
  induction cs with
  | nil => intro d e; simp
  | cons ch cs ih =>
    intro d e
    simp only [List.foldl_cons]
    have h : (if ch = o then d + e + 1 else if ch = c then d + e - 1 else d + e)
        = d + (if ch = o then e + 1 else if ch = c then e - 1 else e) := by
      split_ifs <;> omega
    rw [h]
    exact ih d _

theorem runDepth_cons (o c ch : Char) (cs : List Char) :
    runDepth o c (ch :: cs)
      = (if ch = o then (1:Int) else if ch = c then -1 else 0) + runDepth o c cs := by
  unfold runDepth
  simp only [List.foldl_cons]
  have h0 : (if ch = o then (0:Int) + 1 else if ch = c then 0 - 1 else 0)
      = (if ch = o then (1:Int) else if ch = c then -1 else 0) + 0 := by
    split_ifs <;> omega
  rw [h0]
  exact foldl_depth_shift o c cs _ 0

theorem scanClose_spec (o c : Char) : ∀ (rest acc : List Char) (depth : Int),
    scanClose o c acc depth rest
      = ((List.range rest.length).find?
          (fun j => (rest.get? j == some c)
            && (depth + runDepth o c (rest.take (j + 1)) == 0))).map
          (fun j => acc ++ rest.take (j + 1)) := by
  intro rest
  induction rest with
  | nil => intro acc depth; simp [scanClose]
  | cons ch rest ih =>
    intro acc depth
    have hd1 : depth + runDepth o c [ch]
        = (if ch = o then depth + 1 else if ch = c then depth - 1 else depth) := by
      have : runDepth o c [ch] = (if ch = o then (1:Int) else if ch = c then -1 else 0) := by
        rw [runDepth_cons]
        simp [runDepth]
      rw [this]
      split_ifs <;> omega
    have hp0 : (((ch :: rest).get? 0 == some c)
        && (depth + runDepth o c ((ch :: rest).take (0 + 1)) == 0))
        = ((ch = c ∧ (if ch = o then depth + 1 else if ch = c then depth - 1 else depth) = 0) :
            Bool) := by
      simp only [List.get?_cons_zero, List.take_succ_cons, List.take_zero, hd1]
      rw [Bool.decide_and]
      by_cases h1 : ch = c <;>
        by_cases h2 : (if ch = o then depth + 1 else if ch = c then depth - 1 else depth) = 0 <;>
        simp [h1, h2] <;>
        rfl
    have hpshift : ∀ j : Nat, (((ch :: rest).get? (j + 1) == some c)
        && (depth + runDepth o c ((ch :: rest).take (j + 1 + 1)) == 0))
        = ((rest.get? j == some c)
          && ((if ch = o then depth + 1 else if ch = c then depth - 1 else depth)
              + runDepth o c (rest.take (j + 1)) == 0)) := by
      intro j
      simp only [List.get?_cons_succ, List.take_succ_cons, runDepth_cons]
      have : depth + ((if ch = o then (1:Int) else if ch = c then -1 else 0)
          + runDepth o c (rest.take (j + 1)))
          = (if ch = o then depth + 1 else if ch = c then depth - 1 else depth)
            + runDepth o c (rest.take (j + 1)) := by
        split_ifs <;> omega
      rw [this]
    simp only [scanClose]
    rw [show (ch :: rest).length = rest.length + 1 from rfl]
    rw [List.range_succ_eq_map, List.find?]
    by_cases hcond : ch = c ∧ (if ch = o then depth + 1 else if ch = c then depth - 1 else depth) = 0
    · rw [if_pos hcond]
      have : (((ch :: rest).get? 0 == some c)
          && (depth + runDepth o c ((ch :: rest).take (0 + 1)) == 0)) = true := by
        rw [hp0]
        exact decide_eq_true hcond
      rw [this]
      simp
    · have hfalse : (((ch :: rest).get? 0 == some c)
          && (depth + runDepth o c ((ch :: rest).take (0 + 1)) == 0)) = false := by
        rw [hp0]
        exact decide_eq_false hcond
      rw [if_neg hcond, hfalse]
      rw [List.find?_map]
      rw [ih (acc ++ [ch]) (if ch = o then depth + 1 else if ch = c then depth - 1 else depth)]
      have hcongr : (List.range rest.length).find?
          ((fun j => (((ch :: rest).get? j == some c)
            && (depth + runDepth o c ((ch :: rest).take (j + 1)) == 0))) ∘ (· + 1))
          = (List.range rest.length).find?
            (fun j => (rest.get? j == some c)
              && ((if ch = o then depth + 1 else if ch = c then depth - 1 else depth)
                + runDepth o c (rest.take (j + 1)) == 0)) := by
        apply find?_congr
        intro j
        exact hpshift j
      rw [hcongr]
      cases (List.range rest.length).find?
          (fun j => (rest.get? j == some c)
            && ((if ch = o then depth + 1 else if ch = c then depth - 1 else depth)
              + runDepth o c (rest.take (j + 1)) == 0)) with
      | none => rfl
      | some j => simp [List.take_succ_cons]

theorem extractJsonObject_eq_spec (text : String) :
    extractJsonObject text = specExtractObject text := by
  unfold extractJsonObject specExtractObject
  cases hf : fenceSearch '{' '}' text.toList with
  | some g => rfl
  | none =>
    simp only []
    by_cases ht : text.toList.dropWhile (· ≠ '{') = []
    · rw [if_pos ht, if_pos ht]
    · rw [if_neg ht, if_neg ht, scanClose_spec]
      unfold specCloseIdx
      rw [find?_congr _ _
        (fun j => (((text.toList.dropWhile (· ≠ '{')).get? j == some '}')
          && (runDepth '{' '}' ((text.toList.dropWhile (· ≠ '{')).take (j + 1)) == 0)))
        (by intro j; rw [Int.zero_add])]
      cases (List.range (text.toList.dropWhile (· ≠ '{')).length).find?
          (fun j => (((text.toList.dropWhile (· ≠ '{')).get? j == some '}')
            && (runDepth '{' '}' ((text.toList.dropWhile (· ≠ '{')).take (j + 1)) == 0))) with
      | none => rfl
      | some j => simp

theorem extractJsonArray_eq_spec (text : String) :
    extractJsonArray text = specExtractArray text := by
  unfold extractJsonArray specExtractArray
  cases hf : fenceSearch '[' ']' text.toList with
  | some g => rfl
  | none =>
    simp only []
    by_cases ht : text.toList.dropWhile (· ≠ '[') = []
    · rw [if_pos ht, if_pos ht]
    · rw [if_neg ht, if_neg ht, scanClose_spec]
      unfold specCloseIdx
      rw [find?_congr _ _
        (fun j => (((text.toList.dropWhile (· ≠ '[')).get? j == some ']')
          && (runDepth '[' ']' ((text.toList.dropWhile (· ≠ '[')).take (j + 1)) == 0)))
        (by intro j; rw [Int.zero_add])]
      cases (List.range (text.toList.dropWhile (· ≠ '[')).length).find?
          (fun j => (((text.toList.dropWhile (· ≠ '[')).get? j == some ']')
            && (runDepth '[' ']' ((text.toList.dropWhile (· ≠ '[')).take (j + 1)) == 0))) with
      | none => rfl
      | some j => simp

/-! ### Retry-loop lemmas -/

theorem synthGo_first_fail_second_ok {llm : Nat → Except String String} {t : Tree}
    (h1 : attemptOnce llm 1 = none) (h2 : attemptOnce llm 2 = some t) :
    synthGo llm 1 2 = (some t, 2) := by
  simp [synthGo, h1, h2]

theorem synthGo_all_fail {llm : Nat → Except String String}
    (h1 : attemptOnce llm 1 = none) (h2 : attemptOnce llm 2 = none) :
    synthGo llm 1 2 = (none, 2) := by
  simp [synthGo, h1, h2]

theorem enterpriseAttemptOnce_len {llm : Nat → Except String String} {n : Nat}
    {xs : List Json} (h : enterpriseAttemptOnce llm n = some xs) : xs.length ≤ 15 := by
  unfold enterpriseAttemptOnce at h
  rcases hl : llm n with e | text <;> simp only [hl] at h
  · exact absurd h (by simp)
  · rcases he : extractJsonArray text with e2 | js <;> simp only [he] at h
    · exact absurd h (by simp)
    · rcases hj : jsonLoads js with _ | j <;> simp only [hj] at h
      · exact absurd h (by simp)
      · cases j <;> simp at h
        case arr ys =>
          rw [← h]
          simp [List.length_take]

theorem enterpriseGo_ok_len {llm : Nat → Except String String} :
    ∀ (r start : Nat) (xs : List Json), (enterpriseGo llm start r).1 = some xs →
      xs.length ≤ 15 := by
  intro r
  induction r with
  | zero => intro start xs h; simp [enterpriseGo] at h
  | succ r ih =>
    intro start xs h
    simp only [enterpriseGo] at h
    rcases hA : enterpriseAttemptOnce llm start with _ | ys <;> simp only [hA] at h
    · exact ih (start + 1) xs h
    · simp at h
      rw [← h]
      exact enterpriseAttemptOnce_len hA

theorem validateEnterprises_length : ∀ (xs : List Json) (es : List Enterprise),
    validateEnterprises xs = some es → es.length = xs.length := by
  intro xs
  induction xs with
  | nil => intro es h; simp [validateEnterprises] at h; simp [← h]
  | cons j js ih =>
    intro es h
    simp only [validateEnterprises] at h
    rcases h1 : enterpriseOfJson j with _ | e <;> simp only [h1] at h
    · exact absurd h (by simp)
    · rcases h2 : validateEnterprises js with _ | es2 <;> simp only [h2] at h
      · exact absurd h (by simp)
      · simp at h
        rw [← h]
        simp [ih es2 h2]

/-!
## Claim theorems
-/

/-- **C1**: for every stream produced by Analyze or Generate/Refine (any
number of keywords, any pattern of search/LLM successes and failures), the
emitted `sequence_number`s are strictly increasing starting at 1, and exactly
one terminal event (`completed` xor `error`) is emitted, as the last event. -/
theorem C1_sequence_and_terminal (q : String) (kwLLM : Except String String)
    (comps comps2 : List (String × Option SearchOk)) (und : Except String String)
    (req : GenerateRequest) (synth : String → Nat → Except String String) :
    streamInvariant (analyzeStream q kwLLM comps und) ∧
    streamInvariant (generateStream req kwLLM comps2 synth) := by
  constructor
  · obtain ⟨A, t, h, hA, ht, _, _⟩ := analyzeStream_shape q kwLLM comps und
    exact streamInvariant_of _ A t h hA ht (analyzeStream_seqFrom q kwLLM comps und)
  · obtain ⟨A, t, h, hA, ht, _⟩ := generateStream_shape req kwLLM comps2 synth
    exact streamInvariant_of _ A t h hA ht (generateStream_seqFrom req kwLLM comps2 synth)

/-- **C2** (counterexample): the whole text `{"a": "}"}` is valid JSON, yet the
extractor does not attempt a whole-text parse — its depth-counting scan (blind
to string literals) returns the unparsable span `{"a": "}`; and on a text with
no JSON at all the error carries a fixed message with no excerpt of the
offending text (the same constant for unrelated inputs). -/
theorem C2_counterexample :
    jsonLoads "\x7b\"a\": \"\x7d\"\x7d" = some (.obj [("a", .str "\x7d")]) ∧
    extractJsonObject "\x7b\"a\": \"\x7d\"\x7d" = .ok "\x7b\"a\": \"\x7d" ∧
    jsonLoads "\x7b\"a\": \"\x7d" = none ∧
    extractJsonObject "hello" = .error "LLM 未返回有效的 JSON 产业链结构" ∧
    extractJsonObject "completely different input" = .error "LLM 未返回有效的 JSON 产业链结构" :=
  ⟨rfl, rfl, rfl, rfl, rfl⟩

/-- **C2** (amended): the extractor's attempts are (1) the fenced-code-block
regex, then (2) the depth-counting scan from the first opening delimiter whose
matching closer is the first position where the running depth returns to zero;
there is no whole-text parse attempt, and failures carry one of two fixed
messages without any excerpt of the input — i.e. both extractors coincide with
the spec-side positional description. -/
theorem C2_extractor_amended (text : String) :
    extractJsonObject text = specExtractObject text ∧
    extractJsonArray text = specExtractArray text :=
  ⟨extractJsonObject_eq_spec text, extractJsonArray_eq_spec text⟩

/-- **C3**: the synthesis step of Generate/Refine re-issues the full
language-model invocation on extraction/validation failure with a retry budget
of exactly 2 attempts: failure then success yields success with exactly 2
invocation attempts and exactly one `completed` (no `error`) event; two
failures yield exactly 2 invocation attempts and exactly one `error` (no
`completed`) event. -/
theorem C3_retry_budget (req : GenerateRequest) (kwLLM : Except String String)
    (comps : List (String × Option SearchOk))
    (synth : String → Nat → Except String String) :
    (∀ t : Tree, attemptOnce (synth (generatePrompt req kwLLM comps)) 1 = none →
      attemptOnce (synth (generatePrompt req kwLLM comps)) 2 = some t →
      (synthGo (synth (generatePrompt req kwLLM comps)) 1 2).2 = 2 ∧
      (generateStream req kwLLM comps synth).countP (fun e => e.event_type == .completed) = 1 ∧
      (generateStream req kwLLM comps synth).countP (fun e => e.event_type == .error) = 0) ∧
    (attemptOnce (synth (generatePrompt req kwLLM comps)) 1 = none →
      attemptOnce (synth (generatePrompt req kwLLM comps)) 2 = none →
      (synthGo (synth (generatePrompt req kwLLM comps)) 1 2).2 = 2 ∧
      (generateStream req kwLLM comps synth).countP (fun e => e.event_type == .error) = 1 ∧
      (generateStream req kwLLM comps synth).countP (fun e => e.event_type == .completed) = 0) := by
  obtain ⟨A, tl, hstream, hA, htl, hty⟩ := generateStream_shape req kwLLM comps synth
  constructor
  · intro t h1 h2
    have hsg := synthGo_first_fail_second_ok h1 h2
    rw [hsg] at hty
    refine ⟨by rw [hsg], ?_, ?_⟩
    · rw [hstream, (terminal_counts hA).1, hty]
      rfl
    · rw [hstream, (terminal_counts hA).2, hty]
      rfl
  · intro h1 h2
    have hsg := synthGo_all_fail h1 h2
    rw [hsg] at hty
    refine ⟨by rw [hsg], ?_, ?_⟩
    · rw [hstream, (terminal_counts hA).2, hty]
      rfl
    · rw [hstream, (terminal_counts hA).1, hty]
      rfl

/-- Witness for **C3**: a stub that fails extraction on the first call and
returns a valid tree on the second gives success in exactly 2 attempts with
one `completed` event; an always-malformed stub gives exactly 2 attempts with
one `error` event and no `completed`. -/
theorem C3_retry_budget_witness :
    ((synthGo ((fun (_ : String) (n : Nat) =>
        if n = 1 then Except.ok "nope" else Except.ok "\x7b\"industry_name\": \"X\"\x7d")
        (generatePrompt ⟨"煤", "und", none, none⟩ (.error "e") [])) 1 2).2 = 2 ∧
      (generateStream ⟨"煤", "und", none, none⟩ (.error "e") []
        (fun (_ : String) (n : Nat) =>
          if n = 1 then Except.ok "nope"
          else Except.ok "\x7b\"industry_name\": \"X\"\x7d")).countP
        (fun e => e.event_type == .completed) = 1 ∧
      (generateStream ⟨"煤", "und", none, none⟩ (.error "e") []
        (fun (_ : String) (n : Nat) =>
          if n = 1 then Except.ok "nope"
          else Except.ok "\x7b\"industry_name\": \"X\"\x7d")).countP
        (fun e => e.event_type == .error) = 0) ∧
    ((synthGo ((fun (_ : String) (_ : Nat) => Except.ok "nope")
        (generatePrompt ⟨"煤", "und", none, none⟩ (.error "e") [])) 1 2).2 = 2 ∧
      (generateStream ⟨"煤", "und", none, none⟩ (.error "e") []
        (fun (_ : String) (_ : Nat) => Except.ok "nope")).countP
        (fun e => e.event_type == .error) = 1 ∧
      (generateStream ⟨"煤", "und", none, none⟩ (.error "e") []
        (fun (_ : String) (_ : Nat) => Except.ok "nope")).countP
        (fun e => e.event_type == .completed) = 0) :=
  ⟨(C3_retry_budget ⟨"煤", "und", none, none⟩ (.error "e") []
      (fun (_ : String) (n : Nat) =>
        if n = 1 then Except.ok "nope"
        else Except.ok "\x7b\"industry_name\": \"X\"\x7d")).1
      ⟨"X", "", []⟩ rfl rfl,
   (C3_retry_budget ⟨"煤", "und", none, none⟩ (.error "e") []
      (fun (_ : String) (_ : Nat) => Except.ok "nope")).2 rfl rfl⟩

theorem analyzeStream_webFields (q : String) (kwLLM : Except String String)
    (comps : List (String × Option SearchOk)) (und : Except String String) :
    ((analyzeStream q kwLLM comps und).filter isWebResult).map (fun e => getField e "keyword")
      = comps.map (fun cpl => some (Json.str cpl.1)) := by
  have hH : (analyzeHead q (generateKeywords q kwLLM)).filter isWebResult = [] := rfl
  have hT : ∀ sL w fm, (analyzeTail sL w fm und).filter isWebResult = [] := by
    intro sL w fm
    cases und <;> rfl
  simp only [analyzeStream, List.filter_append, hH, hT, List.nil_append, List.append_nil]
  exact analyzeLoop_webFields _ comps 4 0

theorem generateStream_webFields_refine (q u f : String) (tj : Json)
    (kwLLM : Except String String) (comps : List (String × Option SearchOk))
    (synth : String → Nat → Except String String) :
    ((generateStream ⟨q, u, some tj, some f⟩ kwLLM comps synth).filter isWebResult).map
        (fun e => getField e "keyword")
      = comps.map (fun cpl => some (Json.str cpl.1)) := by
  have hH : (refineHead q (refineKeywords q f kwLLM)).filter isWebResult = [] := rfl
  have hP : ∀ s : Nat, ([mkProgressEvent s "正在根据修改意见调整产业链结构" 2 4 55] :
      List Event).filter isWebResult = [] := by
    intro s
    rfl
  have hT : ∀ sS r, (generateTail sS r).filter isWebResult = [] := by
    intro sS r
    cases r <;> rfl
  simp only [generateStream, List.filter_append, hH, hP, hT, List.nil_append, List.append_nil]
  exact refineLoop_webFields _ comps 4 0

/-- **C4**: every fan-out of `N` keyword searches in Analyze or Refine emits
exactly `N` `web_result` events, one per keyword (in completion order); a
failed search yields a `web_result` event with `result_count` 0 and never
aborts the phase (a successful understanding/synthesis step still ends the
stream with `completed`, however many searches failed). -/
theorem C4_web_results (q : String) (kwLLM : Except String String)
    (comps : List (String × Option SearchOk)) (und : Except String String)
    (q2 u2 f : String) (tj : Json) (comps2 : List (String × Option SearchOk))
    (synth : String → Nat → Except String String) :
    ((comps.map Prod.fst).Perm (generateKeywords q kwLLM) →
      (analyzeStream q kwLLM comps und).countP isWebResult
        = (generateKeywords q kwLLM).length) ∧
    (((analyzeStream q kwLLM comps und).filter isWebResult).map (fun e => getField e "keyword")
      = comps.map (fun cpl => some (Json.str cpl.1))) ∧
    (∀ kw, (kw, none) ∈ comps →
      ∃ e ∈ analyzeStream q kwLLM comps und, e.event_type = .web_result ∧
        getField e "keyword" = some (.str kw) ∧ getField e "result_count" = some (.num 0)) ∧
    (∀ u', und = .ok u' → ∃ t, (analyzeStream q kwLLM comps und).getLast? = some t ∧
      t.event_type = .completed) ∧
    ((comps2.map Prod.fst).Perm (refineKeywords q2 f kwLLM) →
      (generateStream ⟨q2, u2, some tj, some f⟩ kwLLM comps2 synth).countP isWebResult
        = (refineKeywords q2 f kwLLM).length) ∧
    (((generateStream ⟨q2, u2, some tj, some f⟩ kwLLM comps2 synth).filter isWebResult).map
        (fun e => getField e "keyword")
      = comps2.map (fun cpl => some (Json.str cpl.1))) ∧
    (∀ kw, (kw, none) ∈ comps2 →
      ∃ e ∈ generateStream ⟨q2, u2, some tj, some f⟩ kwLLM comps2 synth,
        e.event_type = .web_result ∧ getField e "keyword" = some (.str kw) ∧
        getField e "result_count" = some (.num 0)) ∧
    ((synthGo (synth (generatePrompt ⟨q2, u2, some tj, some f⟩ kwLLM comps2)) 1 2).1.isSome
        = true →
      ∃ t, (generateStream ⟨q2, u2, some tj, some f⟩ kwLLM comps2 synth).getLast? = some t ∧
        t.event_type = .completed) := by
  refine ⟨?_, analyzeStream_webFields q kwLLM comps und, ?_, ?_, ?_,
    generateStream_webFields_refine q2 u2 f tj kwLLM comps2 synth, ?_, ?_⟩
  · intro hp
    rw [analyzeStream_countWeb]
    have := hp.length_eq
    simpa using this
  · intro kw hkw
    obtain ⟨e, he, hp⟩ :=
      analyzeLoop_failures (generateKeywords q kwLLM).length comps 4 0 kw hkw
    refine ⟨e, ?_, hp⟩
    simp only [analyzeStream, List.mem_append]
    exact Or.inl (Or.inr he)
  · intro u' hu
    obtain ⟨A, t, h, hA, ht, hty, _⟩ := analyzeStream_shape q kwLLM comps und
    subst hu
    refine ⟨t, ?_, by simpa using hty⟩
    rw [h]
    exact List.getLast?_concat A
  · intro hp
    rw [generateStream_countWeb_refine]
    have := hp.length_eq
    simpa using this
  · intro kw hkw
    obtain ⟨e, he, hp⟩ :=
      refineLoop_failures (refineKeywords q2 f kwLLM).length comps2 4 0 kw hkw
    refine ⟨e, ?_, hp⟩
    simp only [generateStream, List.mem_append]
    exact Or.inl (Or.inl (Or.inr he))
  · intro hsome
    obtain ⟨A, t, h, hA, ht, hty⟩ :=
      generateStream_shape ⟨q2, u2, some tj, some f⟩ kwLLM comps2 synth
    rcases hres : (synthGo (synth (generatePrompt ⟨q2, u2, some tj, some f⟩ kwLLM comps2)) 1
        2).1 with _ | tr
    · rw [hres] at hsome
      exact absurd hsome (by simp)
    · rw [hres] at hty
      refine ⟨t, ?_, by simpa using hty⟩
      rw [h]
      exact List.getLast?_concat A

/-- Witness for **C4**: with the keyword LLM returning `["k"]` and the single
search for `k` failing, the analyze stream emits exactly one zero-result
`web_result` and still ends with `completed`; likewise for refine mode with a
synthesizable tree. -/
theorem C4_web_results_witness :
    (analyzeStream "X" (.ok "[\"k\"]") [("k", none)] (.ok "u")).countP isWebResult
        = (generateKeywords "X" (.ok "[\"k\"]")).length ∧
    (∃ e ∈ analyzeStream "X" (.ok "[\"k\"]") [("k", none)] (.ok "u"),
      e.event_type = .web_result ∧ getField e "keyword" = some (.str "k") ∧
      getField e "result_count" = some (.num 0)) ∧
    (∃ t, (analyzeStream "X" (.ok "[\"k\"]") [("k", none)] (.ok "u")).getLast? = some t ∧
      t.event_type = .completed) ∧
    (generateStream ⟨"X", "u", some .null, some "改"⟩ (.ok "[\"k\"]") [("k", none)]
        (fun _ _ => .ok "\x7b\"industry_name\": \"X\"\x7d")).countP isWebResult
      = (refineKeywords "X" "改" (.ok "[\"k\"]")).length ∧
    (∃ e ∈ generateStream ⟨"X", "u", some .null, some "改"⟩ (.ok "[\"k\"]") [("k", none)]
        (fun _ _ => .ok "\x7b\"industry_name\": \"X\"\x7d"),
      e.event_type = .web_result ∧ getField e "keyword" = some (.str "k") ∧
      getField e "result_count" = some (.num 0)) ∧
    (∃ t, (generateStream ⟨"X", "u", some .null, some "改"⟩ (.ok "[\"k\"]") [("k", none)]
        (fun _ _ => .ok "\x7b\"industry_name\": \"X\"\x7d")).getLast? = some t ∧
      t.event_type = .completed) := by
  have h := C4_web_results "X" (.ok "[\"k\"]") [("k", none)] (.ok "u")
    "X" "u" "改" .null [("k", none)]
    (fun _ _ => .ok "\x7b\"industry_name\": \"X\"\x7d")
  exact ⟨h.1 (List.Perm.refl ["k"]),
    h.2.2.1 "k" (by simp),
    h.2.2.2.1 "u" rfl,
    h.2.2.2.2.1 (List.Perm.refl ["k"]),
    h.2.2.2.2.2.2.1 "k" (by simp),
    h.2.2.2.2.2.2.2 rfl⟩

/-- **C5** (counterexample): a parsed keyword list with fewer than 5 elements
is *not* substituted by the default keyword set — the two parsed keywords are
returned as-is, so the claim as stated fails at this input. -/
theorem C5_counterexample :
    generateKeywords "煤炭" (.ok "[\"a\", \"b\"]") = ["a", "b"] ∧
    (["a", "b"] : List String) ≠ defaultKeywords "煤炭" :=
  ⟨rfl, by decide⟩

/-- **C5** (amended): the default keyword set is substituted exactly when no
non-empty JSON list can be obtained from the model (call failure, no bracketed
span, unparsable span, empty list); a parsed non-empty list is used as-is —
stringified and truncated to its first 5 elements — even when it has fewer or
more than 5 elements. -/
theorem C5_keywords_amended (q : String) (llm : Except String String) :
    (∀ e, llm = .error e → generateKeywords q llm = defaultKeywords q) ∧
    (∀ t, llm = .ok t → bracketSlice t = none →
      generateKeywords q llm = defaultKeywords q) ∧
    (∀ t s, llm = .ok t → bracketSlice t = some s →
      (jsonLoads s = none → generateKeywords q llm = defaultKeywords q) ∧
      (∀ ks, jsonLoads s = some (.arr ks) → ks = [] →
        generateKeywords q llm = defaultKeywords q) ∧
      (∀ ks, jsonLoads s = some (.arr ks) → ks ≠ [] →
        generateKeywords q llm = (ks.take 5).map pyStr)) := by
  refine ⟨?_, ?_, ?_⟩
  · intro e he
    subst he
    rfl
  · intro t ht hb
    subst ht
    simp only [generateKeywords, hb]
  · intro t s ht hb
    subst ht
    refine ⟨?_, ?_, ?_⟩
    · intro hj
      simp only [generateKeywords, hb, hj]
    · intro ks hj hks
      subst hks
      simp only [generateKeywords, hb, hj]
      rfl
    · intro ks hj hks
      simp only [generateKeywords, hb, hj]
      rw [if_pos (List.length_pos.mpr hks)]

/-- Witness for **C5** (amended): a two-element parsed list is kept (truncated
stringification), and a reply with no bracketed span falls back to the default
set. -/
theorem C5_keywords_amended_witness :
    generateKeywords "X" (.ok "[\"a\", \"b\"]")
      = (([Json.str "a", Json.str "b"].take 5).map pyStr) ∧
    generateKeywords "X" (.ok "no json here") = defaultKeywords "X" :=
  ⟨((C5_keywords_amended "X" (.ok "[\"a\", \"b\"]")).2.2 "[\"a\", \"b\"]" "[\"a\", \"b\"]"
      rfl rfl).2.2 [Json.str "a", Json.str "b"] rfl (by simp),
   (C5_keywords_amended "X" (.ok "no json here")).2.1 "no json here" rfl rfl⟩

/-- **C6**: when an exception escapes the pipeline body, the outer SSE wrapper
emits exactly one terminal `error` event numbered one past the largest
sequence number already emitted, with a generic fixed message; and no event of
any execution path of Analyze or Generate/Refine depends on the internal
exception text (streams are identical for different exception details). -/
theorem C6_opaque_error (events : List Event) (detail detail2 : String)
    (q : String) (kwLLM : Except String String)
    (comps comps2 : List (String × Option SearchOk)) (e1 e2 : String)
    (und : Except String String) (req : GenerateRequest)
    (synth : String → Nat → Except String String) :
    sseWrapper events (some detail)
      = events ++ [mkEvent .error (maxSeq events + 1) [] (some "服务内部错误，请稍后重试")] ∧
    sseWrapper events (some detail) = sseWrapper events (some detail2) ∧
    sseWrapper events none = events ∧
    analyzeStream q kwLLM comps (.error e1) = analyzeStream q kwLLM comps (.error e2) ∧
    analyzeStream q (.error e1) comps und = analyzeStream q (.error e2) comps und ∧
    generateStream req (.error e1) comps2 synth
      = generateStream req (.error e2) comps2 synth ∧
    generateStream req kwLLM comps2 (fun _ _ => .error e1)
      = generateStream req kwLLM comps2 (fun _ _ => .error e2) := by
  obtain ⟨q2, u2, tr, fb⟩ := req
  refine ⟨rfl, rfl, rfl, rfl, ?_, ?_, ?_⟩
  · cases kwLLMCase : und <;> rfl
  · cases tr <;> cases fb <;> rfl
  · cases tr <;> cases fb <;> rfl

/-- **C7**: in Refine mode the synthesis prompt contains the JSON serialization
of the request's tree verbatim: the prompt splits as a concatenation with
`pyJsonDumps tree` appearing unmodified between fixed surrounding parts, for
every behaviour of the keyword LLM and of the supplementary searches. -/
theorem C7_tree_verbatim (q u f : String) (tj : Json) (kwLLM : Except String String)
    (comps : List (String × Option SearchOk)) :
    ∃ a b, generatePrompt ⟨q, u, some tj, some f⟩ kwLLM comps
      = a ++ pyJsonDumps tj ++ b := by
  refine ⟨"你是一个产业链分析专家。用户对当前的\"" ++ q
      ++ "\"产业链结构不满意，请根据用户的修改意见和补充搜索资料调整产业链树。\n\n当前产业链结构：\n",
    "\n\n用户修改意见：\n" ++ f ++ "\n\n补充搜索资料：\n"
      ++ pyTake (if (refineLoop (refineKeywords q f kwLLM).length comps 4 0).formatted ≠ []
          then String.intercalate "\n\n"
            (refineLoop (refineKeywords q f kwLLM).length comps 4 0).formatted
          else "未找到补充资料。") 10000
      ++ "\n\n要求：\n1. 仅根据用户意见做针对性修改，不要大幅重构未提及的部分\n2. 优先使用搜索资料中的真实信息（企业名、技术名、数据等），避免凭空编造\n3. 保持原有结构的合理部分不变\n4. 每个节点包含 name、description、type、children 字段\n5. 输出格式与原结构一致\n\n请严格按以下 JSON 格式输出，不要包含其他内容：\n"
      ++ treeFormatExample, ?_⟩
  simp only [generatePrompt, refinePromptBuild, String.append_assoc]

theorem enterpriseGo_eq_none {llm : Nat → Except String String}
    (h : ∀ n, enterpriseAttemptOnce llm n = none) :
    ∀ (r start : Nat), enterpriseGo llm start r = (none, r) := by
  intro r
  induction r with
  | zero => intro start; rfl
  | succ r ih =>
    intro start
    simp only [enterpriseGo, h start, ih (start + 1)]

theorem searchRelatedEnterprises_ok_len {nodeName chainDefinition : String}
    {comps : List (String × Option SearchOk)} {llm : String → Nat → Except String String}
    {xs : List Json}
    (h : searchRelatedEnterprises nodeName chainDefinition comps llm = .ok xs) :
    xs.length ≤ 15 := by
  unfold searchRelatedEnterprises at h
  split at h
  · next ys n hGo =>
    simp only [Except.ok.injEq] at h
    subst h
    exact enterpriseGo_ok_len 2 1 ys (by rw [hGo])
  · exact absurd h (by simp)

/-- **C8**: the enterprise-lookup operation returns a validated list of at most
15 `{name, description, role}` records; a stub returning a single-element
enterprise array yields exactly that record; an all-failed fan-out (empty
search context) with a stub returning `[]` still succeeds with the empty list;
and when extraction never yields a JSON list within the 2-attempt budget the
whole call fails. -/
theorem C8_enterprise_lookup :
    (∀ (node cd : String) (comps : List (String × Option SearchOk))
        (llm : String → Nat → Except String String) (l : List Enterprise),
      searchEnterprisesEndpoint node cd comps llm = .ok l → l.length ≤ 15) ∧
    (∀ (node cd : String) (comps : List (String × Option SearchOk)),
      searchEnterprisesEndpoint node cd comps
        (fun _ _ => .ok "[\x7b\"name\": \"A Corp\", \"description\": \"d\", \"role\": \"r\"\x7d]")
        = .ok [⟨"A Corp", "d", "r"⟩]) ∧
    (∀ (node cd : String),
      searchEnterprisesEndpoint node cd
        ((enterpriseQueries node cd).map (fun qq => (qq, none)))
        (fun _ _ => .ok "[]") = .ok []) ∧
    (∀ (node cd : String) (comps : List (String × Option SearchOk))
        (llm : String → Nat → Except String String),
      (∀ p n, enterpriseAttemptOnce (llm p) n = none) →
      searchEnterprisesEndpoint node cd comps llm = .error "企业搜索失败，请稍后重试") := by
  refine ⟨?_, ?_, ?_, ?_⟩
  · intro node cd comps llm l h
    unfold searchEnterprisesEndpoint at h
    split at h
    · exact absurd h (by simp)
    · next xs hs =>
      split at h
      · next es hv =>
        simp only [Except.ok.injEq] at h
        subst h
        rw [validateEnterprises_length xs es hv]
        exact searchRelatedEnterprises_ok_len hs
      · exact absurd h (by simp)
  · intro node cd comps
    rfl
  · intro node cd
    rfl
  · intro node cd comps llm hfail
    unfold searchEnterprisesEndpoint searchRelatedEnterprises
    rw [enterpriseGo_eq_none (fun n => hfail _ n) 2 1]

/-- Witness for **C8**: the bound applies to the concrete single-record run,
and a stub whose replies never contain a JSON array makes the endpoint fail. -/
theorem C8_enterprise_lookup_witness :
    searchEnterprisesEndpoint "节点" "说明" []
        (fun _ _ => .ok "[\x7b\"name\": \"A Corp\", \"description\": \"d\", \"role\": \"r\"\x7d]")
      = .ok [⟨"A Corp", "d", "r"⟩] ∧
    ([(⟨"A Corp", "d", "r"⟩ : Enterprise)].length ≤ 15) ∧
    searchEnterprisesEndpoint "节点" "说明" [] (fun _ _ => .ok "no array here")
      = .error "企业搜索失败，请稍后重试" := by
  refine ⟨C8_enterprise_lookup.2.1 "节点" "说明" [], ?_, ?_⟩
  · exact C8_enterprise_lookup.1 "节点" "说明" []
      (fun _ _ => .ok "[\x7b\"name\": \"A Corp\", \"description\": \"d\", \"role\": \"r\"\x7d]")
      [⟨"A Corp", "d", "r"⟩] (C8_enterprise_lookup.2.1 "节点" "说明" [])
  · exact C8_enterprise_lookup.2.2.2 "节点" "说明" [] (fun _ _ => .ok "no array here")
      (fun p n => rfl)

/-- **C9**: the `sources` list delivered in the Analyze `completed` event is
the URL-deduplicated union of the webpages returned across the fan-out —
first occurrence wins, output in first-seen order over the collected webpages,
entries with an empty URL excluded — as characterized by the spec-side
first-seen fold. -/
theorem C9_sources_dedup (q : String) (kwLLM : Except String String)
    (comps : List (String × Option SearchOk)) (u : String) :
    ∃ e, (analyzeStream q kwLLM comps (.ok u)).getLast? = some e ∧
      e.event_type = .completed ∧
      getField e "sources" = some (.arr ((specDedupUrls (webpagesOf comps)).map pageJson)) := by
  obtain ⟨A, t, h, hA, ht, hty, hsrc⟩ := analyzeStream_shape q kwLLM comps (.ok u)
  refine ⟨t, ?_, by simpa using hty, ?_⟩
  · rw [h]
    exact List.getLast?_concat A
  · rw [hsrc u rfl, dedupSources_eq_spec, analyzeLoop_webpages]

/-- **C10**: the keyword-generation helper is total at its interface: for every
query and every collaborator behaviour it returns a non-empty list of at most
5 strings — either the 5 default keywords derived from the query, or the
stringified first at-most-5 elements of a non-empty parsed list. -/
theorem C10_keywords_total (q : String) (llm : Except String String) :
    1 ≤ (generateKeywords q llm).length ∧ (generateKeywords q llm).length ≤ 5 ∧
    (generateKeywords q llm = defaultKeywords q ∨
      ∃ ks : List Json, ks ≠ [] ∧ generateKeywords q llm = (ks.take 5).map pyStr) := by
  rcases llm with e | t
  · exact ⟨by simp [generateKeywords, defaultKeywords], by simp [generateKeywords, defaultKeywords], Or.inl rfl⟩
  · cases hb : bracketSlice t with
    | none =>
      simp only [generateKeywords, hb]
      exact ⟨by simp [defaultKeywords], by simp [defaultKeywords], Or.inl trivial⟩
    | some s =>
      cases hj : jsonLoads s with
      | none =>
        simp only [generateKeywords, hb, hj]
        exact ⟨by simp [defaultKeywords], by simp [defaultKeywords], Or.inl trivial⟩
      | some j =>
        cases j with
        | arr ks =>
          simp only [generateKeywords, hb, hj]
          by_cases hk : ks.length > 0
          · rw [if_pos hk]
            refine ⟨?_, ?_, Or.inr ⟨ks, ?_, rfl⟩⟩
            · simp only [List.length_map, List.length_take]
              omega
            · simp only [List.length_map, List.length_take]
              omega
            · intro hnil
              subst hnil
              simp at hk
          · rw [if_neg hk]
            exact ⟨by simp [defaultKeywords], by simp [defaultKeywords], Or.inl rfl⟩
        | null =>
          simp only [generateKeywords, hb, hj]
          exact ⟨by simp [defaultKeywords], by simp [defaultKeywords], Or.inl trivial⟩
        | bool b =>
          simp only [generateKeywords, hb, hj]
          exact ⟨by simp [defaultKeywords], by simp [defaultKeywords], Or.inl trivial⟩
        | num n =>
          simp only [generateKeywords, hb, hj]
          exact ⟨by simp [defaultKeywords], by simp [defaultKeywords], Or.inl trivial⟩
        | str s2 =>
          simp only [generateKeywords, hb, hj]
          exact ⟨by simp [defaultKeywords], by simp [defaultKeywords], Or.inl trivial⟩
        | obj kvs =>
          simp only [generateKeywords, hb, hj]
          exact ⟨by simp [defaultKeywords], by simp [defaultKeywords], Or.inl trivial⟩

end IndustryChain
